import Mathlib

/-!
Verification development for the quantitative trading-signal engine in
`stock_analyzer/core/trading_signal_generator.py`.

The engine is embedded shallowly:

* pandas/numpy float values are modelled exactly by `PVal`: either NaN, ±∞, or
  an exact number of the form `a + b·√v` with `a b v : ℚ` (`v ≥ 0`).  The only
  square roots produced by the pipeline are `rolling(..).std()` (Bollinger) and
  `np.std` (confidence), both applied to rational data, so every value arising
  in the computation lives in a single quadratic extension of ℚ and the whole
  pipeline stays executable.  Sums or products of two incommensurable radicals
  never arise; those unreachable cases map to NaN.
* pandas Series become functions `Nat → PVal` indexed by chronological bar
  position, with rolling windows, shifts and recursive EMA defined exactly as
  pandas computes them (`min_periods = window`, `adjust=False`, sample std).
* the two Python exceptions that the code can actually raise (`IndexError` from
  `iloc[0]` on an empty frame, `ZeroDivisionError` from dividing by a zero
  total weight) are modelled with `Except`.

The Batteries `Rat` arithmetic is `@[irreducible]`; it is reset to
semireducible locally so that concrete runs of the engine can be evaluated by
`decide`.
-/

set_option maxRecDepth 400000

attribute [local semireducible] Rat.add Rat.mul Rat.inv Rat.sub Rat.ofScientific

/-- Sign of a rational number as an integer (-1, 0, or 1). -/
def qsign (q : ℚ) : Int :=
  if q < 0 then -1 else if q = 0 then 0 else 1

/-- Sign of the real number `a + b·√v`, assuming `v ≥ 0`.  Decided by rational
arithmetic: when `a` and `b` disagree in sign the comparison reduces to
comparing `a^2` with `b^2·v`. -/
def radSign (a b v : ℚ) : Int :=
  if b = 0 ∨ v = 0 then qsign a
  else if 0 < b then
    if 0 ≤ a then 1 else qsign (b ^ 2 * v - a ^ 2)
  else
    if a ≤ 0 then -1 else qsign (a ^ 2 - b ^ 2 * v)

/-- A pandas/numpy float value as it arises in this pipeline: NaN, ±∞, or the
exact real number `a + b·√v` (`num a b v`).  Plain rationals are `num a 0 0`. -/
inductive PVal where
  | nan : PVal
  | inf : PVal
  | ninf : PVal
  | num (a b v : ℚ) : PVal
deriving DecidableEq, Repr

/-- Embed a rational number as a `PVal`. -/
def PVal.ofQ (q : ℚ) : PVal := .num q 0 0

/-- NaN test (`pd.isna`): only the NaN value is "na"; ±∞ are not. -/
def PVal.isNan : PVal → Bool
  | .nan => true
  | _ => false

/-- Sign of a `PVal` (0 for NaN; used only through non-NaN paths). -/
def PVal.sign : PVal → Int
  | .nan => 0
  | .inf => 1
  | .ninf => -1
  | .num a b v => radSign a b v

/-- IEEE-style negation. -/
def PVal.neg : PVal → PVal
  | .nan => .nan
  | .inf => .ninf
  | .ninf => .inf
  | .num a b v => .num (-a) (-b) v

/-- IEEE-style addition.  Adding two exact numbers keeps the common radical;
incommensurable radicals (which never arise in this pipeline) map to NaN. -/
def PVal.add : PVal → PVal → PVal
  | .nan, _ => .nan
  | _, .nan => .nan
  | .inf, .ninf => .nan
  | .inf, _ => .inf
  | .ninf, .inf => .nan
  | .ninf, _ => .ninf
  | .num _ _ _, .inf => .inf
  | .num _ _ _, .ninf => .ninf
  | .num a b v, .num c d w =>
    if b = 0 then .num (a + c) d w
    else if d = 0 then .num (a + c) b v
    else if v = w then .num (a + c) (b + d) v
    else .nan

/-- IEEE-style subtraction, via addition of the negation. -/
def PVal.sub (x y : PVal) : PVal := x.add y.neg

/-- An infinity with the sign of `s` (NaN when `s = 0`, matching `±∞ · 0`). -/
def signedInf (s : Int) : PVal :=
  if s = 0 then .nan else if 0 < s then .inf else .ninf

/-- IEEE-style multiplication. -/
def PVal.mul : PVal → PVal → PVal
  | .nan, _ => .nan
  | _, .nan => .nan
  | .inf, .inf => .inf
  | .inf, .ninf => .ninf
  | .ninf, .inf => .ninf
  | .ninf, .ninf => .inf
  | .inf, .num a b v => signedInf (radSign a b v)
  | .num a b v, .inf => signedInf (radSign a b v)
  | .ninf, .num a b v => signedInf (-radSign a b v)
  | .num a b v, .ninf => signedInf (-radSign a b v)
  | .num a b v, .num c d w =>
    if d = 0 then .num (a * c) (b * c) v
    else if b = 0 then .num (a * c) (a * d) w
    else if v = w then .num (a * c + b * d * v) (a * d + b * c) v
    else .nan

/-- numpy-style division: `x/0` gives `±∞` by the sign of `x` (`0/0` is NaN),
`x/±∞` gives `0`.  Division by an exact number rationalises the denominator
inside the common quadratic extension. -/
def PVal.div : PVal → PVal → PVal
  | .nan, _ => .nan
  | _, .nan => .nan
  | .inf, .inf => .nan
  | .inf, .ninf => .nan
  | .ninf, .inf => .nan
  | .ninf, .ninf => .nan
  | .num _ _ _, .inf => .num 0 0 0
  | .num _ _ _, .ninf => .num 0 0 0
  | .inf, .num a b v => signedInf (if radSign a b v = 0 then 1 else radSign a b v)
  | .ninf, .num a b v => signedInf (if radSign a b v = 0 then -1 else -radSign a b v)
  | .num a b v, .num c d w =>
    if radSign c d w = 0 then signedInf (radSign a b v)
    else if d = 0 then .num (a / c) (b / c) v
    else if b = 0 then
      .num (a * c / (c ^ 2 - d ^ 2 * w)) (-(a * d) / (c ^ 2 - d ^ 2 * w)) w
    else if v = w then
      .num ((a * c - b * d * v) / (c ^ 2 - d ^ 2 * v)) ((b * c - a * d) / (c ^ 2 - d ^ 2 * v)) v
    else .nan

/-- Strict "less than" with float semantics: any comparison against NaN is
false; otherwise decided by the sign of the difference. -/
def PVal.lt : PVal → PVal → Bool
  | .nan, _ => false
  | _, .nan => false
  | x, y => (x.sub y).sign = -1

/-- Strict "greater than" with float semantics (false whenever NaN is
involved). -/
def PVal.gt (x y : PVal) : Bool := PVal.lt y x

/-- Absolute value. -/
def PVal.pabs : PVal → PVal
  | .nan => .nan
  | .inf => .inf
  | .ninf => .inf
  | .num a b v => if radSign a b v < 0 then .num (-a) (-b) v else .num a b v

/-- Binary maximum on non-NaN values (used only after NaN filtering). -/
def PVal.pmax (x y : PVal) : PVal := if x.lt y then y else x

/-- Binary minimum on non-NaN values (used only after NaN filtering). -/
def PVal.pmin (x y : PVal) : PVal := if y.lt x then y else x

/-- Python truthiness of a float: `0.0` is falsy; NaN and ±∞ are truthy. -/
def PVal.isTruthy : PVal → Bool
  | .nan => true
  | .inf => true
  | .ninf => true
  | .num a b v => radSign a b v ≠ 0

/-- Python `min(a, b)`: returns `b` exactly when `b < a`. -/
def pymin (a b : PVal) : PVal := if b.lt a then b else a

/-- Fuel-driven integer square root by binary search (kernel-friendly:
structural recursion, only accelerated `Nat` operations). -/
def isqrtGo (x : Nat) : Nat → Nat → Nat → Nat
  | 0, lo, _ => lo
  | fuel + 1, lo, hi =>
    if hi ≤ lo + 1 then lo
    else
      let m := (lo + hi) / 2
      if m * m ≤ x then isqrtGo x fuel m hi else isqrtGo x fuel lo m

/-- Integer square root (floor) of a natural number. -/
def isqrtN (x : Nat) : Nat := isqrtGo x 128 0 (x + 1)

/-- The rational square root of `q`, if `q` is a perfect square of a rational
(checked by the equalities in the definition, so no correctness of `isqrtN`
is needed); `none` otherwise. -/
def ratSqrt? (q : ℚ) : Option ℚ :=
  if q.num < 0 then none
  else
    let sn := isqrtN q.num.toNat
    let sd := isqrtN q.den
    if sn * sn = q.num.toNat ∧ sd * sd = q.den then some (mkRat sn sd) else none

/-- Square root of a rational as a `PVal`: a rational when `q` is a perfect
square, the exact radical `0 + 1·√q` otherwise, NaN for negative input
(matching float `sqrt`). -/
def pvalSqrt (q : ℚ) : PVal :=
  if q < 0 then .nan
  else
    match ratSqrt? q with
    | some s => .num s 0 0
    | none => .num 0 1 q

/-- One OHLCV bar.  `ts` is the (chronological) index value of the bar in the
caller's DataFrame. -/
structure Bar where
  ts : ℚ
  open_p : ℚ
  high : ℚ
  low : ℚ
  close : ℚ
  volume : ℚ
deriving DecidableEq, Repr

/-- pandas `Series.shift()`: index 0 becomes NaN, everything else moves up. -/
def shiftS (f : Nat → PVal) : Nat → PVal
  | 0 => .nan
  | i + 1 => f i

/-- pandas `Series.diff()`: elementwise `x - x.shift()`. -/
def diffS (f : Nat → PVal) : Nat → PVal :=
  fun i => (f i).sub (shiftS f i)

/-- pandas `Series.where(cond, other)`: keep the value where `cond` holds,
replace by `other` elsewhere (NaN comparisons are false, so NaN entries are
replaced). -/
def whereS (f : Nat → PVal) (cond : Nat → Bool) (other : PVal) : Nat → PVal :=
  fun i => if cond i then f i else other

/-- The trailing window of length `p` ending at index `i` (valid for
`p ≤ i + 1`). -/
def windowL (p i : Nat) (f : Nat → PVal) : List PVal :=
  (List.range p).map (fun k => f (i + 1 - p + k))

/-- pandas `Series.rolling(window=p).mean()` with the default
`min_periods = p`: NaN before `p` values exist or when the window contains a
NaN, otherwise the arithmetic mean of the window. -/
def rolling_mean (p : Nat) (f : Nat → PVal) : Nat → PVal :=
  fun i =>
    if i + 1 < p then .nan
    else if (windowL p i f).any PVal.isNan then .nan
    else ((windowL p i f).foldl PVal.add (.ofQ 0)).div (.ofQ p)

/-- pandas `Series.rolling(window=p).max()` (NaN on short or NaN-containing
windows). -/
def rolling_max (p : Nat) (f : Nat → PVal) : Nat → PVal :=
  fun i =>
    if i + 1 < p then .nan
    else if (windowL p i f).any PVal.isNan then .nan
    else
      match windowL p i f with
      | [] => .nan
      | x :: xs => xs.foldl PVal.pmax x

/-- pandas `Series.rolling(window=p).min()` (NaN on short or NaN-containing
windows). -/
def rolling_min (p : Nat) (f : Nat → PVal) : Nat → PVal :=
  fun i =>
    if i + 1 < p then .nan
    else if (windowL p i f).any PVal.isNan then .nan
    else
      match windowL p i f with
      | [] => .nan
      | x :: xs => xs.foldl PVal.pmin x

/-- Extract the rational value of a `PVal` when it is an exact rational. -/
def PVal.toQ? : PVal → Option ℚ
  | .num a b v => if b = 0 ∨ v = 0 then some a else none
  | _ => none

/-- All-rational view of a list of `PVal`s (`none` if any entry is NaN, ±∞ or
irrational — such windows never reach `rolling_std` in this pipeline). -/
def toQList : List PVal → Option (List ℚ)
  | [] => some []
  | x :: xs =>
    match x.toQ?, toQList xs with
    | some q, some qs => some (q :: qs)
    | _, _ => none

/-- pandas `Series.rolling(window=p).std()`: the sample standard deviation
(`ddof = 1`) of the window, NaN on short or NaN-containing windows. -/
def rolling_std (p : Nat) (f : Nat → PVal) : Nat → PVal :=
  fun i =>
    if i + 1 < p then .nan
    else
      match toQList (windowL p i f) with
      | none => .nan
      | some qs =>
        let μ : ℚ := qs.sum / p
        pvalSqrt (((qs.map (fun q => (q - μ) ^ 2)).sum) / (p - 1 : ℕ))

/-- pandas `Series.ewm(span, adjust=False).mean()`: the recursion
`y₀ = x₀`, `yᵢ = (1-α)·yᵢ₋₁ + α·xᵢ` with `α = 2/(span+1)`. -/
def ewm_mean (α : ℚ) (f : Nat → PVal) : Nat → PVal
  | 0 => f 0
  | i + 1 => ((PVal.ofQ (1 - α)).mul (ewm_mean α f i)).add ((PVal.ofQ α).mul (f (i + 1)))

/-- pandas `Series.pct_change()`: `x / x.shift() - 1`. -/
def pct_change (f : Nat → PVal) : Nat → PVal :=
  fun i => ((f i).div (shiftS f i)).sub (.ofQ 1)

/-- Row-wise maximum of three columns with pandas `DataFrame.max(axis=1)`
semantics: NaN entries are skipped; all-NaN rows give NaN. -/
def rowMax3 (a b c : PVal) : PVal :=
  match ([a, b, c].filter (fun x => !x.isNan)) with
  | [] => .nan
  | x :: xs => xs.foldl PVal.pmax x

/-- `TechnicalIndicatorCalculator.calculate_sma`. -/
def calculate_sma (data : Nat → PVal) (period : Nat) : Nat → PVal :=
  rolling_mean period data

/-- `TechnicalIndicatorCalculator.calculate_ema` (span-parameterised EMA). -/
def calculate_ema (data : Nat → PVal) (period : Nat) : Nat → PVal :=
  ewm_mean (2 / (period + 1 : ℚ)) data

/-- `TechnicalIndicatorCalculator.calculate_rsi`: `100 - 100/(1 + RS)` with
`RS` the ratio of the rolling mean gain to the rolling mean loss. -/
def calculate_rsi (data : Nat → PVal) (period : Nat) : Nat → PVal :=
  let delta := diffS data
  let gain := rolling_mean period (whereS delta (fun i => (delta i).gt (.ofQ 0)) (.ofQ 0))
  let loss := rolling_mean period
    (fun i => ((whereS delta (fun j => (delta j).lt (.ofQ 0)) (.ofQ 0)) i).neg)
  let rs := fun i => (gain i).div (loss i)
  fun i => (PVal.ofQ 100).sub ((PVal.ofQ 100).div ((PVal.ofQ 1).add (rs i)))

/-- `TechnicalIndicatorCalculator.calculate_macd`: (macd line, signal line,
histogram). -/
def calculate_macd (data : Nat → PVal) (fast slow signal : Nat) :
    (Nat → PVal) × (Nat → PVal) × (Nat → PVal) :=
  let ema_fast := calculate_ema data fast
  let ema_slow := calculate_ema data slow
  let macd_line := fun i => (ema_fast i).sub (ema_slow i)
  let signal_line := calculate_ema macd_line signal
  let histogram := fun i => (macd_line i).sub (signal_line i)
  (macd_line, signal_line, histogram)

/-- `TechnicalIndicatorCalculator.calculate_bollinger_bands`: (upper, middle,
lower). -/
def calculate_bollinger_bands (data : Nat → PVal) (period : Nat) (std_dev : ℚ) :
    (Nat → PVal) × (Nat → PVal) × (Nat → PVal) :=
  let middle := calculate_sma data period
  let std := rolling_std period data
  let upper := fun i => (middle i).add ((std i).mul (.ofQ std_dev))
  let lower := fun i => (middle i).sub ((std i).mul (.ofQ std_dev))
  (upper, middle, lower)

/-- True range of the `calculate_atr`/`calculate_adx` computations:
the row-wise max of `high-low`, `|high-prev_close|`, `|low-prev_close|`. -/
def true_range (high low close : Nat → PVal) : Nat → PVal :=
  fun i =>
    rowMax3 ((high i).sub (low i))
      (((high i).sub (shiftS close i)).pabs)
      (((low i).sub (shiftS close i)).pabs)

/-- `TechnicalIndicatorCalculator.calculate_atr`: rolling mean of the true
range. -/
def calculate_atr (high low close : Nat → PVal) (period : Nat) : Nat → PVal :=
  rolling_mean period (true_range high low close)

/-- `TechnicalIndicatorCalculator.calculate_stochastic`: (%K, %D). -/
def calculate_stochastic (high low close : Nat → PVal) (k_period d_period : Nat) :
    (Nat → PVal) × (Nat → PVal) :=
  let lowest_low := rolling_min k_period low
  let highest_high := rolling_max k_period high
  let k := fun i =>
    ((PVal.ofQ 100).mul ((close i).sub (lowest_low i))).div
      ((highest_high i).sub (lowest_low i))
  let d := rolling_mean d_period k
  (k, d)

/-- `TechnicalIndicatorCalculator.calculate_adx`: (ADX, +DI, -DI).  Note the
source filters `plus_dm` first and then compares `minus_dm` against the
already-filtered `plus_dm`; this is reproduced exactly. -/
def calculate_adx (high low close : Nat → PVal) (period : Nat) :
    (Nat → PVal) × (Nat → PVal) × (Nat → PVal) :=
  let tr := true_range high low close
  let atr := rolling_mean period tr
  let plus_dm0 := diffS high
  let minus_dm0 := fun i => (diffS low i).neg
  let plus_dm := fun i =>
    if ((plus_dm0 i).gt (minus_dm0 i)) && ((plus_dm0 i).gt (.ofQ 0))
    then plus_dm0 i else .ofQ 0
  let minus_dm := fun i =>
    if ((minus_dm0 i).gt (plus_dm i)) && ((minus_dm0 i).gt (.ofQ 0))
    then minus_dm0 i else .ofQ 0
  let plus_di := fun i => (PVal.ofQ 100).mul ((rolling_mean period plus_dm i).div (atr i))
  let minus_di := fun i => (PVal.ofQ 100).mul ((rolling_mean period minus_dm i).div (atr i))
  let dx := fun i =>
    ((PVal.ofQ 100).mul (((plus_di i).sub (minus_di i)).pabs)).div
      ((plus_di i).add (minus_di i))
  let adx := rolling_mean period dx
  (adx, plus_di, minus_di)

/-- The five-level signal enum (`SignalType` in the source). -/
inductive SignalType where
  | STRONG_BUY
  | BUY
  | NEUTRAL
  | SELL
  | STRONG_SELL
deriving DecidableEq, Repr

/-- One indicator's contribution (`SignalComponent` in the source).  The
interpolated numeric parts of the `threshold`/`reasoning` f-strings are
elided; only their constant prefixes are kept. -/
structure SignalComponent where
  name : String
  signal : SignalType
  weight : ℚ
  value : PVal
  threshold : String
  reasoning : String
deriving DecidableEq, Repr

/-- The composite output (`TradingSignal` in the source).  `timestamp` is the
frame's index value at `iloc[0]`. -/
structure TradingSignal where
  symbol : String
  timestamp : ℚ
  signal : SignalType
  confidence : PVal
  components : List SignalComponent
  price : PVal
  stop_loss : Option PVal
  take_profit : Option PVal
  risk_reward : Option ℚ
deriving DecidableEq, Repr

/-- The Python exceptions relevant to `generate_signal`.  The source raises
`IndexError` (empty frame at `iloc[0]`) and `ZeroDivisionError` (zero total
weight); `insufficientDataError` is declared only because the specification
names a dedicated `InsufficientDataError`, which the code never defines nor
raises. -/
inductive PyError where
  | indexError
  | zeroDivisionError
  | insufficientDataError
deriving DecidableEq, Repr

/-- The per-component weights from the `signals.weights` configuration
block. -/
structure SignalWeights where
  rsi : ℚ
  macd : ℚ
  bollinger : ℚ
  trend : ℚ
  volume : ℚ
  stochastic : ℚ
  adx : ℚ
deriving DecidableEq, Repr

/-- The `signals.risk` configuration block. -/
structure RiskConfig where
  atr_multiplier : ℚ
  risk_reward_target : ℚ
deriving DecidableEq, Repr

/-- The configuration actually consulted by the generator.  Note: the indicator
*periods* in the source's config (`rsi.period`, `macd.fast`, ...) are dead:
`calculate_all_indicators` looks them up under flat keys (`rsi_period`,
`macd_fast`, ...) that the nested config never contains, so the indicator
computation always uses the hard-coded defaults.  Only the thresholds, weights
and risk parameters below ever influence the result. -/
structure Params where
  rsi_oversold : ℚ := 30
  rsi_overbought : ℚ := 70
  stoch_oversold : ℚ := 20
  stoch_overbought : ℚ := 80
  adx_trend_threshold : ℚ := 25
  weights : SignalWeights := ⟨1, 1, 1, 1, 1/2, 1/2, 1/2⟩
  risk : RiskConfig := ⟨2, 2⟩
deriving DecidableEq, Repr

/-- The default configuration of `TradingSignalGenerator.__init__`. -/
def defaultParams : Params := {}

/-- The DataFrame produced by `calculate_all_indicators`: every column as a
function of the chronological (oldest-first) row position.  The source returns
the frame sorted newest-first; `IndicatorFrame.iloc` converts between the two
conventions. -/
structure IndicatorFrame where
  n : Nat
  ts : Nat → ℚ
  close : Nat → PVal
  high : Nat → PVal
  low : Nat → PVal
  volume : Nat → PVal
  sma_20 : Nat → PVal
  sma_50 : Nat → PVal
  sma_200 : Nat → PVal
  rsi : Nat → PVal
  macd : Nat → PVal
  macd_signal : Nat → PVal
  macd_hist : Nat → PVal
  bb_upper : Nat → PVal
  bb_middle : Nat → PVal
  bb_lower : Nat → PVal
  bb_width : Nat → PVal
  bb_pct : Nat → PVal
  atr : Nat → PVal
  atr_pct : Nat → PVal
  stoch_k : Nat → PVal
  stoch_d : Nat → PVal
  volume_sma : Nat → PVal
  volume_ratio : Nat → PVal
  adx : Nat → PVal
  plus_di : Nat → PVal
  minus_di : Nat → PVal
  change_1d : Nat → PVal

/-- Placeholder bar for out-of-range row access (never read on valid
indices). -/
def defaultBar : Bar := ⟨0, 0, 0, 0, 0, 0⟩

/-- Stable insertion of a bar into a chronologically sorted list: the new bar
goes before any bar with an equal or later timestamp. -/
def insertBar (b : Bar) : List Bar → List Bar
  | [] => [b]
  | x :: xs => if x.ts < b.ts then x :: insertBar b xs else b :: x :: xs

/-- `result.sort_index(ascending=True)`: the bars in chronological order
(stable insertion sort; structural recursion so that concrete runs reduce in
the kernel). -/
def sortBars : List Bar → List Bar
  | [] => []
  | b :: rest => insertBar b (sortBars rest)

/-- The `close` column of a (chronologically sorted) frame. -/
def closeCol (s : List Bar) : Nat → PVal := fun i => .ofQ ((s.getD i defaultBar).close)

/-- The `high` column of a (chronologically sorted) frame. -/
def highCol (s : List Bar) : Nat → PVal := fun i => .ofQ ((s.getD i defaultBar).high)

/-- The `low` column of a (chronologically sorted) frame. -/
def lowCol (s : List Bar) : Nat → PVal := fun i => .ofQ ((s.getD i defaultBar).low)

/-- The `volume` column of a (chronologically sorted) frame. -/
def volumeCol (s : List Bar) : Nat → PVal := fun i => .ofQ ((s.getD i defaultBar).volume)

/-- Column `bb_upper`. -/
def bbUpperCol (s : List Bar) : Nat → PVal := (calculate_bollinger_bands (closeCol s) 20 2).1

/-- Column `bb_middle`. -/
def bbMiddleCol (s : List Bar) : Nat → PVal := (calculate_bollinger_bands (closeCol s) 20 2).2.1

/-- Column `bb_lower`. -/
def bbLowerCol (s : List Bar) : Nat → PVal := (calculate_bollinger_bands (closeCol s) 20 2).2.2

/-- Column `bb_width = (bb_upper - bb_lower) / bb_middle`. -/
def bbWidthCol (s : List Bar) : Nat → PVal :=
  fun i => ((bbUpperCol s i).sub (bbLowerCol s i)).div (bbMiddleCol s i)

/-- Column `bb_pct = (close - bb_lower) / (bb_upper - bb_lower)`. -/
def bbPctCol (s : List Bar) : Nat → PVal :=
  fun i => ((closeCol s i).sub (bbLowerCol s i)).div ((bbUpperCol s i).sub (bbLowerCol s i))

/-- Column `atr`. -/
def atrCol (s : List Bar) : Nat → PVal := calculate_atr (highCol s) (lowCol s) (closeCol s) 14

/-- Column `atr_pct = atr / close * 100`. -/
def atrPctCol (s : List Bar) : Nat → PVal :=
  fun i => ((atrCol s i).div (closeCol s i)).mul (.ofQ 100)

/-- Column `volume_sma`. -/
def volumeSmaCol (s : List Bar) : Nat → PVal := calculate_sma (volumeCol s) 20

/-- Column `volume_ratio = volume / volume_sma`. -/
def volumeRatioCol (s : List Bar) : Nat → PVal :=
  fun i => (volumeCol s i).div (volumeSmaCol s i)

/-- Column `change_1d = close.pct_change() * 100`. -/
def change1dCol (s : List Bar) : Nat → PVal :=
  fun i => (pct_change (closeCol s) i).mul (.ofQ 100)

/-- `TechnicalIndicatorCalculator.calculate_all_indicators`.  The function
copies the caller's frame, sorts it chronologically, and adds every indicator
column; the periods are the hard-coded defaults (see `Params`). -/
def calculate_all_indicators (df : List Bar) (params : Params) : IndicatorFrame :=
  let result_sorted := sortBars df
  { n := result_sorted.length
    ts := fun i => (result_sorted.getD i defaultBar).ts
    close := closeCol result_sorted
    high := highCol result_sorted
    low := lowCol result_sorted
    volume := volumeCol result_sorted
    sma_20 := calculate_sma (closeCol result_sorted) 20
    sma_50 := calculate_sma (closeCol result_sorted) 50
    sma_200 := calculate_sma (closeCol result_sorted) 200
    rsi := calculate_rsi (closeCol result_sorted) 14
    macd := (calculate_macd (closeCol result_sorted) 12 26 9).1
    macd_signal := (calculate_macd (closeCol result_sorted) 12 26 9).2.1
    macd_hist := (calculate_macd (closeCol result_sorted) 12 26 9).2.2
    bb_upper := bbUpperCol result_sorted
    bb_middle := bbMiddleCol result_sorted
    bb_lower := bbLowerCol result_sorted
    bb_width := bbWidthCol result_sorted
    bb_pct := bbPctCol result_sorted
    atr := atrCol result_sorted
    atr_pct := atrPctCol result_sorted
    stoch_k := (calculate_stochastic (highCol result_sorted) (lowCol result_sorted)
      (closeCol result_sorted) 14 3).1
    stoch_d := (calculate_stochastic (highCol result_sorted) (lowCol result_sorted)
      (closeCol result_sorted) 14 3).2
    volume_sma := volumeSmaCol result_sorted
    volume_ratio := volumeRatioCol result_sorted
    adx := (calculate_adx (highCol result_sorted) (lowCol result_sorted)
      (closeCol result_sorted) 14).1
    plus_di := (calculate_adx (highCol result_sorted) (lowCol result_sorted)
      (closeCol result_sorted) 14).2.1
    minus_di := (calculate_adx (highCol result_sorted) (lowCol result_sorted)
      (closeCol result_sorted) 14).2.2
    change_1d := change1dCol result_sorted }

/-- A row of the indicator frame as the analyzers see it (`df.iloc[j]`). -/
structure Row where
  close : PVal
  rsi : PVal
  macd : PVal
  macd_signal : PVal
  macd_hist : PVal
  bb_upper : PVal
  bb_lower : PVal
  bb_pct : PVal
  sma_20 : PVal
  sma_50 : PVal
  sma_200 : PVal
  volume_ratio : PVal
  change_1d : PVal
  stoch_k : PVal
  stoch_d : PVal
  adx : PVal
  plus_di : PVal
  minus_di : PVal
  atr : PVal
deriving DecidableEq, Repr

/-- `df_with_indicators.iloc[j]` of the newest-first frame: row `j` counts
back from the latest bar. -/
def IndicatorFrame.iloc (t : IndicatorFrame) (j : Nat) : Row :=
  let i := t.n - 1 - j
  { close := t.close i, rsi := t.rsi i
    macd := t.macd i, macd_signal := t.macd_signal i, macd_hist := t.macd_hist i
    bb_upper := t.bb_upper i, bb_lower := t.bb_lower i, bb_pct := t.bb_pct i
    sma_20 := t.sma_20 i, sma_50 := t.sma_50 i, sma_200 := t.sma_200 i
    volume_ratio := t.volume_ratio i, change_1d := t.change_1d i
    stoch_k := t.stoch_k i, stoch_d := t.stoch_d i
    adx := t.adx i, plus_di := t.plus_di i, minus_di := t.minus_di i
    atr := t.atr i }

/-- `TradingSignalGenerator._signal_to_score`: the signed score of a
signal. -/
def signal_to_score : SignalType → ℚ
  | .STRONG_BUY => 2
  | .BUY => 1
  | .NEUTRAL => 0
  | .SELL => -1
  | .STRONG_SELL => -2

/-- `TradingSignalGenerator._score_to_signal`: thresholds 1.5, 0.5, -1.5 and
-0.5, first match wins. -/
def score_to_signal (score : ℚ) : SignalType :=
  if score ≥ 3/2 then .STRONG_BUY
  else if score ≥ 1/2 then .BUY
  else if score ≤ -(3/2) then .STRONG_SELL
  else if score ≤ -(1/2) then .SELL
  else .NEUTRAL

/-- `TradingSignalGenerator.analyze_rsi`. -/
def analyze_rsi (p : Params) (row : Row) : SignalComponent :=
  let rsi := row.rsi
  let oversold := p.rsi_oversold
  let overbought := p.rsi_overbought
  if rsi.isNan then
    { name := "RSI", signal := .NEUTRAL, weight := p.weights.rsi,
      value := .ofQ 50, threshold := "oversold/overbought", reasoning := "数据不足" }
  else
    let sr : SignalType × String :=
      if rsi.lt (.ofQ oversold) then (.STRONG_BUY, "超卖区域")
      else if rsi.lt (.ofQ 40) then (.BUY, "接近超卖")
      else if rsi.gt (.ofQ overbought) then (.STRONG_SELL, "超买区域")
      else if rsi.gt (.ofQ 60) then (.SELL, "接近超买")
      else (.NEUTRAL, "中性区域")
    { name := "RSI", signal := sr.1, weight := p.weights.rsi,
      value := rsi, threshold := "oversold/overbought", reasoning := sr.2 }

/-- `TradingSignalGenerator.analyze_macd`. -/
def analyze_macd (p : Params) (row : Row) (prev_row : Option Row) : SignalComponent :=
  let macd := row.macd
  let signal_line := row.macd_signal
  let histogram := row.macd_hist
  if macd.isNan || signal_line.isNan then
    { name := "MACD", signal := .NEUTRAL, weight := p.weights.macd,
      value := .ofQ 0, threshold := "交叉", reasoning := "数据不足" }
  else
    let crossover :=
      match prev_row with
      | none => false
      | some pr =>
        if pr.macd.isNan then false
        else (pr.macd.gt pr.macd_signal) != (macd.gt signal_line)
    let sr : SignalType × String :=
      if macd.gt signal_line && histogram.gt (.ofQ 0) then
        if crossover then (.STRONG_BUY, "金叉，正向动能")
        else (.BUY, "MACD在信号线上方，正向动能")
      else if macd.lt signal_line && histogram.lt (.ofQ 0) then
        if crossover then (.STRONG_SELL, "死叉，负向动能")
        else (.SELL, "MACD在信号线下方，负向动能")
      else (.NEUTRAL, "MACD信号不明确")
    { name := "MACD", signal := sr.1, weight := p.weights.macd,
      value := histogram, threshold := "交叉", reasoning := sr.2 }

/-- `TradingSignalGenerator.analyze_bollinger`. -/
def analyze_bollinger (p : Params) (row : Row) : SignalComponent :=
  let bb_pct := row.bb_pct
  if bb_pct.isNan then
    { name := "布林带", signal := .NEUTRAL, weight := p.weights.bollinger,
      value := .ofQ (1/2), threshold := "0.0/1.0", reasoning := "数据不足" }
  else
    let sr : SignalType × String :=
      if bb_pct.lt (.ofQ 0) then (.STRONG_BUY, "价格低于下轨")
      else if bb_pct.lt (.ofQ (1/5)) then (.BUY, "接近下轨")
      else if bb_pct.gt (.ofQ 1) then (.STRONG_SELL, "价格高于上轨")
      else if bb_pct.gt (.ofQ (4/5)) then (.SELL, "接近上轨")
      else (.NEUTRAL, "在布林带中间")
    { name := "布林带", signal := sr.1, weight := p.weights.bollinger,
      value := bb_pct, threshold := "0.0/1.0", reasoning := sr.2 }

/-- `TradingSignalGenerator.analyze_trend`.  Checks involving the (possibly
undefined) `sma_200` contribute votes only when `sma_200` is defined. -/
def analyze_trend (p : Params) (row : Row) : SignalComponent :=
  let close := row.close
  let sma_20 := row.sma_20
  let sma_50 := row.sma_50
  let sma_200 := row.sma_200
  if sma_20.isNan || sma_50.isNan then
    { name := "趋势", signal := .NEUTRAL, weight := p.weights.trend,
      value := .ofQ 0, threshold := "均线交叉", reasoning := "数据不足" }
  else
    let c1 : Int × Int := if close.gt sma_20 then (1, 0) else (0, 1)
    let c2 : Int × Int := if close.gt sma_50 then (1, 0) else (0, 1)
    let c3 : Int × Int :=
      if !sma_200.isNan then (if close.gt sma_200 then (1, 0) else (0, 1)) else (0, 0)
    let c4 : Int × Int :=
      if !sma_200.isNan then (if sma_50.gt sma_200 then (1, 0) else (0, 1)) else (0, 0)
    let score : Int := (c1.1 + c2.1 + c3.1 + c4.1) - (c1.2 + c2.2 + c3.2 + c4.2)
    let sr : SignalType × String :=
      if score ≥ 3 then (.STRONG_BUY, "强势上涨：价格在所有均线上方，金叉形态")
      else if score ≥ 1 then (.BUY, "上涨趋势：价格在关键均线上方")
      else if score ≤ -3 then (.STRONG_SELL, "强势下跌：价格在所有均线下方，死叉形态")
      else if score ≤ -1 then (.SELL, "下跌趋势：价格在关键均线下方")
      else (.NEUTRAL, "趋势信号混合")
    { name := "趋势", signal := sr.1, weight := p.weights.trend,
      value := .ofQ score, threshold := "均线交叉", reasoning := sr.2 }

/-- `TradingSignalGenerator.analyze_volume`. -/
def analyze_volume (p : Params) (row : Row) : SignalComponent :=
  let volume_ratio := row.volume_ratio
  if volume_ratio.isNan then
    { name := "成交量", signal := .NEUTRAL, weight := p.weights.volume,
      value := .ofQ 1, threshold := "1.5x平均", reasoning := "数据不足" }
  else
    let change := row.change_1d
    let sr : SignalType × String :=
      if volume_ratio.gt (.ofQ 2) then
        if change.gt (.ofQ 0) then (.STRONG_BUY, "放量上涨")
        else (.STRONG_SELL, "放量下跌")
      else if volume_ratio.gt (.ofQ (3/2)) then
        if change.gt (.ofQ 0) then (.BUY, "成交量放大配合上涨")
        else (.SELL, "成交量放大配合下跌")
      else (.NEUTRAL, "成交量正常")
    { name := "成交量", signal := sr.1, weight := p.weights.volume,
      value := volume_ratio, threshold := "1.5x平均", reasoning := sr.2 }

/-- `TradingSignalGenerator.analyze_stochastic`. -/
def analyze_stochastic (p : Params) (row : Row) : SignalComponent :=
  let k := row.stoch_k
  let d := row.stoch_d
  let oversold := p.stoch_oversold
  let overbought := p.stoch_overbought
  if k.isNan || d.isNan then
    { name := "随机指标", signal := .NEUTRAL, weight := p.weights.stochastic,
      value := .ofQ 50, threshold := "oversold/overbought", reasoning := "数据不足" }
  else
    let sr : SignalType × String :=
      if k.lt (.ofQ oversold) && d.lt (.ofQ oversold) then (.STRONG_BUY, "超卖")
      else if k.lt (.ofQ 30) then (.BUY, "接近超卖")
      else if k.gt (.ofQ overbought) && d.gt (.ofQ overbought) then (.STRONG_SELL, "超买")
      else if k.gt (.ofQ 70) then (.SELL, "接近超买")
      else (.NEUTRAL, "中性区域")
    { name := "随机指标", signal := sr.1, weight := p.weights.stochastic,
      value := k, threshold := "oversold/overbought", reasoning := sr.2 }

/-- `TradingSignalGenerator.analyze_adx`. -/
def analyze_adx (p : Params) (row : Row) : SignalComponent :=
  let adx := row.adx
  let plus_di := row.plus_di
  let minus_di := row.minus_di
  let trend_threshold := p.adx_trend_threshold
  if adx.isNan then
    { name := "ADX", signal := .NEUTRAL, weight := p.weights.adx,
      value := .ofQ 20, threshold := "趋势阈值", reasoning := "数据不足" }
  else
    let sr : SignalType × String :=
      if adx.lt (.ofQ 20) then (.NEUTRAL, "无明确趋势")
      else if adx.lt (.ofQ trend_threshold) then
        if plus_di.gt minus_di then (.BUY, "上涨趋势形成中")
        else (.SELL, "下跌趋势形成中")
      else
        if plus_di.gt minus_di then
          (if adx.gt (.ofQ 40) then (.STRONG_BUY, "强势上涨") else (.BUY, "强势上涨"))
        else
          (if adx.gt (.ofQ 40) then (.STRONG_SELL, "强势下跌") else (.SELL, "强势下跌"))
    { name := "ADX", signal := sr.1, weight := p.weights.adx,
      value := adx, threshold := "趋势阈值", reasoning := sr.2 }

/-- Python truthiness of an `Optional[float]` (`None` and `0.0` are falsy;
NaN is truthy). -/
def truthyOpt : Option PVal → Bool
  | none => false
  | some v => v.isTruthy

/-- `TradingSignalGenerator.calculate_risk_levels`: (stop_loss, take_profit,
risk_reward).  Note `risk_reward` follows Python truthiness of `stop_loss`. -/
def calculate_risk_levels (p : Params) (price : PVal) (signal : SignalType) (atr : PVal) :
    Option PVal × Option PVal × Option ℚ :=
  let atr_multiplier := p.risk.atr_multiplier
  let risk_reward_target := p.risk.risk_reward_target
  let sl_tp : Option PVal × Option PVal :=
    if signal = .STRONG_BUY ∨ signal = .BUY then
      (some (price.sub (atr.mul (.ofQ atr_multiplier))),
       some (price.add ((atr.mul (.ofQ atr_multiplier)).mul (.ofQ risk_reward_target))))
    else if signal = .STRONG_SELL ∨ signal = .SELL then
      (some (price.add (atr.mul (.ofQ atr_multiplier))),
       some (price.sub ((atr.mul (.ofQ atr_multiplier)).mul (.ofQ risk_reward_target))))
    else (none, none)
  let risk_reward := if truthyOpt sl_tp.1 then some risk_reward_target else none
  (sl_tp.1, sl_tp.2, risk_reward)

/-- The seven analyzer calls of `generate_signal`, in source order. -/
def components_of (p : Params) (t : IndicatorFrame) : List SignalComponent :=
  let row := t.iloc 0
  let prev_row : Option Row := if 1 < t.n then some (t.iloc 1) else none
  [analyze_rsi p row,
   analyze_macd p row prev_row,
   analyze_bollinger p row,
   analyze_trend p row,
   analyze_volume p row,
   analyze_stochastic p row,
   analyze_adx p row]

/-- `total_weight = sum(c.weight for c in components)`. -/
def total_weight_of (comps : List SignalComponent) : ℚ :=
  (comps.map SignalComponent.weight).sum

/-- `weighted_score` of `generate_signal` (lines 802-806). -/
def weighted_score_of (comps : List SignalComponent) : ℚ :=
  (comps.map (fun c => signal_to_score c.signal * c.weight)).sum / total_weight_of comps

/-- numpy population variance (`np.std(xs)^2`, `ddof = 0`). -/
def popVar (xs : List ℚ) : ℚ :=
  let μ : ℚ := xs.sum / xs.length
  ((xs.map (fun x => (x - μ) ^ 2)).sum) / xs.length

/-- `np.std`: the population standard deviation as a `PVal`. -/
def np_std (xs : List ℚ) : PVal := pvalSqrt (popVar xs)

/-- The confidence computation of `generate_signal` (lines 811-815):
`min(100, (agreement*0.5 + strength*0.5) * 100)` with
`agreement = 1 - np.std(scores)/2` and `strength = |weighted_score|/2`. -/
def confidence_of (comps : List SignalComponent) (weighted_score : ℚ) : PVal :=
  let scores := comps.map (fun c => signal_to_score c.signal)
  let agreement := (PVal.ofQ 1).sub ((np_std scores).div (.ofQ 2))
  let strength : ℚ := |weighted_score| / 2
  pymin (.ofQ 100)
    (((agreement.mul (.ofQ (1/2))).add ((PVal.ofQ strength).mul (.ofQ (1/2)))).mul (.ofQ 100))

/-- The body of `TradingSignalGenerator.generate_signal` after the indicator
frame has been computed.  `iloc[0]` on an empty frame raises `IndexError`; the
Python float division `/ total_weight` raises `ZeroDivisionError` when the
total weight is zero. -/
def signal_from_frame (p : Params) (t : IndicatorFrame) (stock_code stock_name : String) :
    Except PyError TradingSignal :=
  if t.n = 0 then .error .indexError
  else
    let row := t.iloc 0
    let comps := components_of p t
    if total_weight_of comps = 0 then .error .zeroDivisionError
    else
      let weighted_score := weighted_score_of comps
      let composite_signal := score_to_signal weighted_score
      let confidence := confidence_of comps weighted_score
      let atr := row.atr
      let rl := calculate_risk_levels p row.close composite_signal atr
      .ok
        { symbol := stock_name ++ "(" ++ stock_code ++ ")"
          timestamp := t.ts (t.n - 1)
          signal := composite_signal
          confidence := confidence
          components := comps
          price := row.close
          stop_loss := rl.1
          take_profit := rl.2.1
          risk_reward := rl.2.2 }

/-- `TradingSignalGenerator.generate_signal`: compute all indicators over the
caller's bars, then fuse the seven component signals. -/
def generate_signal (p : Params) (kline_data : List Bar) (stock_code stock_name : String) :
    Except PyError TradingSignal :=
  signal_from_frame p (calculate_all_indicators kline_data p) stock_code stock_name

/-- Interpretation of a `PVal` as a real number (NaN and ±∞ map to junk 0;
theorems only interpret exact values). -/
noncomputable def PVal.toReal : PVal → ℝ
  | .num a b v => (a : ℝ) + (b : ℝ) * Real.sqrt (v : ℝ)
  | _ => 0

/-- A Python heap object relevant to the signal pipeline: a raw OHLCV
DataFrame, or one that has had the indicator columns added. -/
inductive PyObj where
  | frame (bars : List Bar)
  | indframe (t : IndicatorFrame)

/-- A tiny heap of Python objects, addressed by position.  Used to make the
frame-effect (no mutation of the caller's DataFrame) and the absence of hidden
state provable rather than definitional. -/
abbrev Heap := List PyObj

/-- `calculate_all_indicators` at the heap level, mirroring its object
operations: `df.copy()` allocates a fresh frame, `sort_index` allocates
another, the indicator column assignments mutate that fresh copy in place, and
the final descending `sort_index` allocates the returned frame.  Returns the
new heap and the id of the returned frame. -/
def calculate_all_indicators_heap (h : Heap) (dfId : Nat) (params : Params) : Heap × Nat :=
  match h.get? dfId with
  | some (.frame bars) =>
    let h1 : Heap := h ++ [.frame bars]
    let h2 : Heap := h1 ++ [.frame (sortBars bars)]
    let h3 : Heap := h2.set h1.length (.indframe (calculate_all_indicators bars params))
    let h4 : Heap := h3 ++ [.indframe (calculate_all_indicators bars params)]
    (h4, h3.length)
  | _ => (h, dfId)

/-- `generate_signal` at the heap level: compute the indicator frame through
the heap, then read it back and fuse. -/
def generate_signal_heap (h : Heap) (dfId : Nat) (p : Params) (stock_code stock_name : String) :
    Heap × Except PyError TradingSignal :=
  let hr := calculate_all_indicators_heap h dfId p
  match hr.1.get? hr.2 with
  | some (.indframe t) => (hr.1, signal_from_frame p t stock_code stock_name)
  | _ => (hr.1, .error .indexError)

/-- A bar with identical open, high, low and close. -/
def mkFlatBar (i : Nat) (c v : ℚ) : Bar := ⟨i, c, c, c, c, v⟩

/-- Sixty bars of identical closing price 10.00 with constant volume: the flat
scenario of the specification. -/
def flat_series : List Bar := (List.range 60).map (fun i => mkFlatBar i 10 1000)

/-- Offsets of the last twenty closes of the rising test series around their
mean: strictly increasing, summing to 0, with sum of squares 1900 = 19·100, so
that the 20-bar sample variance is exactly 1 and the whole evaluation stays
rational. -/
def rising_offsets : List ℚ :=
  [-25, -11, -8, -7, -6, -5, -4, -3, -2, -1, 1, 2, 3, 4, 5, 6, 7, 8, 11, 25]

/-- Closing prices of the rising test series: strictly increasing from 10.00
(bar 0) to 20.00 (bar 59). -/
def rising_close (i : Nat) : ℚ :=
  if i < 40 then 10 + i / 8 else 35 / 2 + (rising_offsets.getD (i - 40) 0) / 10

/-- A monotonically rising series of 60 closes from 10.00 to 20.00 whose final
bar has above-average volume (volume ratio 2000/1050 = 40/21 ≈ 1.9). -/
def rising_series : List Bar :=
  (List.range 60).map (fun i => mkFlatBar i (rising_close i) (if i = 59 then 2000 else 1000))

/-- A three-bar series (too short for any 14-period indicator: ATR is
undefined on its latest bar). -/
def three_bars : List Bar :=
  [mkFlatBar 0 10 1000, mkFlatBar 1 11 1000, mkFlatBar 2 12 1000]

/-- A single-bar series. -/
def one_bar : List Bar := [mkFlatBar 0 10 1000]

/-- The all-zero component weights (total weight 0). -/
def zeroWeights : SignalWeights := ⟨0, 0, 0, 0, 0, 0, 0⟩

/-- The default configuration with every component weight overridden to 0. -/
def zeroWeightParams : Params := { weights := zeroWeights }

/-- A row whose RSI cell is `x` and whose other indicator cells are undefined
(used to exercise `analyze_rsi` in isolation). -/
def rowWithRsi (x : PVal) : Row :=
  { close := .ofQ 10, rsi := x, macd := .nan, macd_signal := .nan, macd_hist := .nan,
    bb_upper := .nan, bb_lower := .nan, bb_pct := .nan, sma_20 := .nan, sma_50 := .nan,
    sma_200 := .nan, volume_ratio := .nan, change_1d := .nan, stoch_k := .nan,
    stoch_d := .nan, adx := .nan, plus_di := .nan, minus_di := .nan, atr := .nan }

/-- The rational closing price at row `j` of a sorted frame (the value under
`closeCol`). -/
def closeQ (s : List Bar) (j : Nat) : ℚ := (s.getD j defaultBar).close

/-! ### Basic lemmas about the float model -/

theorem PVal.isNan_iff {x : PVal} : x.isNan = true ↔ x = .nan := by
  cases x <;> simp [PVal.isNan]

@[simp] theorem PVal.nan_add (x : PVal) : PVal.add .nan x = .nan := by
  cases x <;> rfl

@[simp] theorem PVal.add_nan (x : PVal) : PVal.add x .nan = .nan := by
  cases x <;> rfl

@[simp] theorem PVal.neg_nan : PVal.neg .nan = .nan := rfl

@[simp] theorem PVal.nan_sub (x : PVal) : PVal.sub .nan x = .nan := by
  cases x <;> rfl

@[simp] theorem PVal.sub_nan (x : PVal) : PVal.sub x .nan = .nan := by
  cases x <;> rfl

@[simp] theorem PVal.nan_mul (x : PVal) : PVal.mul .nan x = .nan := by
  cases x <;> rfl

@[simp] theorem PVal.mul_nan (x : PVal) : PVal.mul x .nan = .nan := by
  cases x <;> rfl

@[simp] theorem PVal.nan_div (x : PVal) : PVal.div .nan x = .nan := by
  cases x <;> rfl

@[simp] theorem PVal.div_nan (x : PVal) : PVal.div x .nan = .nan := by
  cases x <;> rfl

@[simp] theorem PVal.ofQ_isNan (q : ℚ) : (PVal.ofQ q).isNan = false := rfl

@[simp] theorem PVal.nan_isNan : PVal.isNan .nan = true := rfl

@[simp] theorem PVal.ofQ_add (a b : ℚ) : (PVal.ofQ a).add (PVal.ofQ b) = PVal.ofQ (a + b) := by
  simp [PVal.ofQ, PVal.add]

@[simp] theorem PVal.ofQ_sub (a b : ℚ) : (PVal.ofQ a).sub (PVal.ofQ b) = PVal.ofQ (a - b) := by
  simp [PVal.ofQ, PVal.sub, PVal.neg, PVal.add]
  ring

@[simp] theorem PVal.ofQ_mul (a b : ℚ) : (PVal.ofQ a).mul (PVal.ofQ b) = PVal.ofQ (a * b) := by
  simp [PVal.ofQ, PVal.mul]

theorem qsign_eq_neg_one_iff {q : ℚ} : qsign q = -1 ↔ q < 0 := by
  unfold qsign
  split_ifs with h1 h2
  · simp [h1]
  · simp [h2]
  · simp [h1]

theorem radSign_ofQ (a : ℚ) : radSign a 0 0 = qsign a := by
  simp [radSign]

theorem PVal.ofQ_lt (a b : ℚ) : (PVal.ofQ a).lt (PVal.ofQ b) = decide (a < b) := by
  have h1 : (PVal.ofQ a).lt (PVal.ofQ b) = decide (qsign (a - b) = -1) := by
    simp [PVal.ofQ, PVal.lt, PVal.sub, PVal.neg, PVal.add, PVal.sign, radSign, sub_eq_add_neg]
  rw [h1, decide_eq_decide, qsign_eq_neg_one_iff]
  constructor <;> intro h <;> linarith

theorem PVal.ofQ_gt (a b : ℚ) : (PVal.ofQ a).gt (PVal.ofQ b) = decide (b < a) := by
  simp [PVal.gt, PVal.ofQ_lt]

/-! ### Structural lemmas about the pipeline -/

theorem length_insertBar (b : Bar) (l : List Bar) :
    (insertBar b l).length = l.length + 1 := by
  induction l with
  | nil => rfl
  | cons x xs ih =>
    simp only [insertBar]
    split
    · simp [ih]
    · simp

theorem length_sortBars (l : List Bar) : (sortBars l).length = l.length := by
  induction l with
  | nil => rfl
  | cons x xs ih => simp [sortBars, length_insertBar, ih]

theorem calc_n (df : List Bar) (p : Params) :
    (calculate_all_indicators df p).n = df.length := by
  simp [calculate_all_indicators, length_sortBars]

theorem analyze_rsi_weight (p : Params) (row : Row) :
    (analyze_rsi p row).weight = p.weights.rsi := by
  simp only [analyze_rsi]
  split <;> rfl

theorem analyze_macd_weight (p : Params) (row : Row) (prev : Option Row) :
    (analyze_macd p row prev).weight = p.weights.macd := by
  simp only [analyze_macd]
  split <;> rfl

theorem analyze_bollinger_weight (p : Params) (row : Row) :
    (analyze_bollinger p row).weight = p.weights.bollinger := by
  simp only [analyze_bollinger]
  split <;> rfl

theorem analyze_trend_weight (p : Params) (row : Row) :
    (analyze_trend p row).weight = p.weights.trend := by
  simp only [analyze_trend]
  split <;> rfl

theorem analyze_volume_weight (p : Params) (row : Row) :
    (analyze_volume p row).weight = p.weights.volume := by
  simp only [analyze_volume]
  split <;> rfl

theorem analyze_stochastic_weight (p : Params) (row : Row) :
    (analyze_stochastic p row).weight = p.weights.stochastic := by
  simp only [analyze_stochastic]
  split <;> rfl

theorem analyze_adx_weight (p : Params) (row : Row) :
    (analyze_adx p row).weight = p.weights.adx := by
  simp only [analyze_adx]
  split <;> rfl

theorem total_weight_components (p : Params) (t : IndicatorFrame) :
    total_weight_of (components_of p t) =
      p.weights.rsi + p.weights.macd + p.weights.bollinger + p.weights.trend +
      p.weights.volume + p.weights.stochastic + p.weights.adx := by
  simp [total_weight_of, components_of, analyze_rsi_weight, analyze_macd_weight,
    analyze_bollinger_weight, analyze_trend_weight, analyze_volume_weight,
    analyze_stochastic_weight, analyze_adx_weight]
  ring

/-! ### Claim C3: composite thresholds of the score-to-signal mapping -/

/-- C3: the composite `SignalType` returned by `generate_signal` is exactly
`score_to_signal` of the weighted score, and that mapping sends a score to
NEUTRAL iff it lies strictly between -0.5 and 0.5; outside that interval,
scores ≥ 1.5 map to STRONG_BUY, scores in [0.5, 1.5) to BUY, scores ≤ -1.5 to
STRONG_SELL and scores in (-1.5, -0.5] to SELL. -/
theorem composite_signal_thresholds (p : Params) (bars : List Bar)
    (code nm : String) (sig : TradingSignal)
    (hok : generate_signal p bars code nm = .ok sig) :
    sig.signal =
      score_to_signal (weighted_score_of (components_of p (calculate_all_indicators bars p))) ∧
    ∀ s : ℚ,
      (score_to_signal s = .NEUTRAL ↔ -(1/2) < s ∧ s < 1/2) ∧
      (3/2 ≤ s → score_to_signal s = .STRONG_BUY) ∧
      (1/2 ≤ s → s < 3/2 → score_to_signal s = .BUY) ∧
      (s ≤ -(3/2) → score_to_signal s = .STRONG_SELL) ∧
      (-(3/2) < s → s ≤ -(1/2) → score_to_signal s = .SELL) := by
  constructor
  · simp only [generate_signal, signal_from_frame] at hok
    split at hok
    · simp at hok
    · split at hok
      · simp at hok
      · cases hok
        rfl
  · intro s
    unfold score_to_signal
    refine ⟨?_, ?_, ?_, ?_, ?_⟩
    · split_ifs with h1 h2 h3 h4
      · exact iff_of_false (by decide) (by rintro ⟨hl, hr⟩; linarith)
      · exact iff_of_false (by decide) (by rintro ⟨hl, hr⟩; linarith)
      · exact iff_of_false (by decide) (by rintro ⟨hl, hr⟩; linarith)
      · exact iff_of_false (by decide) (by rintro ⟨hl, hr⟩; linarith)
      · exact iff_of_true rfl ⟨by linarith, by linarith⟩
    · intro h
      rw [if_pos (by linarith)]
    · intro h1 h2
      rw [if_neg (by linarith), if_pos (by linarith)]
    · intro h
      rw [if_neg (by linarith), if_neg (by linarith), if_pos (by linarith)]
    · intro h1 h2
      rw [if_neg (by linarith), if_neg (by linarith), if_neg (by linarith),
        if_pos (by linarith)]

/-- Witness for C3 at a concrete one-bar series and concrete scores. -/
theorem composite_signal_thresholds_witness :
    ∃ sig, generate_signal defaultParams one_bar "000001" "TEST" = .ok sig ∧
      sig.signal =
        score_to_signal
          (weighted_score_of (components_of defaultParams
            (calculate_all_indicators one_bar defaultParams))) ∧
      score_to_signal (7/4) = .STRONG_BUY ∧
      score_to_signal 0 = .NEUTRAL := by
  have hsome : (generate_signal defaultParams one_bar "000001" "TEST").toOption.isSome = true := by
    decide
  cases hr : generate_signal defaultParams one_bar "000001" "TEST" with
  | error e =>
    rw [hr] at hsome
    simp [Except.toOption] at hsome
  | ok sig =>
    have h := composite_signal_thresholds defaultParams one_bar "000001" "TEST" sig hr
    exact ⟨sig, rfl, h.1, (h.2 (7/4)).2.1 (by norm_num), (h.2 0).1.2 ⟨by norm_num, by norm_num⟩⟩

/-! ### Claim C7: the RSI analyzer's threshold buckets -/

/-- C7: with the default thresholds, `analyze_rsi` maps an undefined RSI to
NEUTRAL with the "insufficient data" rationale, and maps a defined RSI value
`v` to STRONG_BUY when `v < 30`, BUY when `30 ≤ v < 40` (so `v = 30` falls in
the BUY bucket: the oversold boundary is a strict `<`), STRONG_SELL when
`v > 70`, SELL when `60 < v ≤ 70`, and NEUTRAL when `40 ≤ v ≤ 60`. -/
theorem analyze_rsi_thresholds :
    (∀ row : Row, row.rsi = .nan →
        (analyze_rsi defaultParams row).signal = .NEUTRAL ∧
        (analyze_rsi defaultParams row).reasoning = "数据不足") ∧
    ∀ (row : Row) (v : ℚ), row.rsi = .ofQ v →
      (v < 30 → (analyze_rsi defaultParams row).signal = .STRONG_BUY) ∧
      (30 ≤ v → v < 40 → (analyze_rsi defaultParams row).signal = .BUY) ∧
      (70 < v → (analyze_rsi defaultParams row).signal = .STRONG_SELL) ∧
      (60 < v → v ≤ 70 → (analyze_rsi defaultParams row).signal = .SELL) ∧
      (40 ≤ v → v ≤ 60 → (analyze_rsi defaultParams row).signal = .NEUTRAL) := by
  constructor
  · intro row h
    constructor <;> simp [analyze_rsi, h, PVal.isNan]
  · intro row v hv
    refine ⟨?_, ?_, ?_, ?_, ?_⟩
    · intro h30
      simp [analyze_rsi, hv, PVal.ofQ_lt, defaultParams, h30]
    · intro h30 h40
      simp [analyze_rsi, hv, PVal.ofQ_lt, PVal.ofQ_gt, defaultParams, not_lt.2 h30, h40]
    · intro h70
      have h30 : ¬ v < 30 := by linarith
      have h40 : ¬ v < 40 := by linarith
      simp [analyze_rsi, hv, PVal.ofQ_lt, PVal.ofQ_gt, defaultParams, h30, h40, h70]
    · intro h60 h70
      have h30 : ¬ v < 30 := by linarith
      have h40 : ¬ v < 40 := by linarith
      have h70n : ¬ 70 < v := by linarith
      simp [analyze_rsi, hv, PVal.ofQ_lt, PVal.ofQ_gt, defaultParams, h30, h40, h70n, h60]
    · intro h40l h60
      have h30 : ¬ v < 30 := by linarith
      have h40 : ¬ v < 40 := by linarith
      have h70 : ¬ 70 < v := by linarith
      have h60n : ¬ 60 < v := by linarith
      simp [analyze_rsi, hv, PVal.ofQ_lt, PVal.ofQ_gt, defaultParams, h30, h40, h70, h60n]

/-- Witness for C7: RSI exactly 30.0 classifies as BUY, an undefined RSI as
NEUTRAL. -/
theorem analyze_rsi_thresholds_witness :
    (analyze_rsi defaultParams (rowWithRsi (.ofQ 30))).signal = .BUY ∧
    (analyze_rsi defaultParams (rowWithRsi .nan)).signal = .NEUTRAL := by
  have h1 := (analyze_rsi_thresholds.2 (rowWithRsi (.ofQ 30)) 30 rfl).2.1 (by norm_num) (by norm_num)
  have h2 := (analyze_rsi_thresholds.1 (rowWithRsi .nan) rfl).1
  exact ⟨h1, h2⟩

/-! ### Claim C10: zero total weight raises ZeroDivisionError -/

/-- C10: the aggregation divides by the sum of the seven configured component
weights without a guard: whenever that sum is zero (e.g. all weights
overridden to 0), `generate_signal` on any non-empty series raises
`ZeroDivisionError` instead of returning a signal. -/
theorem zero_total_weight_zero_division (p : Params) (bars : List Bar) (code nm : String)
    (hne : bars ≠ [])
    (hw : p.weights.rsi + p.weights.macd + p.weights.bollinger + p.weights.trend +
          p.weights.volume + p.weights.stochastic + p.weights.adx = 0) :
    generate_signal p bars code nm = .error .zeroDivisionError := by
  have hn : ¬ (calculate_all_indicators bars p).n = 0 := by
    rw [calc_n]
    simpa using hne
  have htw : total_weight_of (components_of p (calculate_all_indicators bars p)) = 0 := by
    rw [total_weight_components]
    exact hw
  simp [generate_signal, signal_from_frame, hn, htw]

/-- Witness for C10: all weights overridden to 0 on a one-bar series. -/
theorem zero_total_weight_zero_division_witness :
    one_bar ≠ [] ∧
    generate_signal zeroWeightParams one_bar "000001" "TEST" = .error .zeroDivisionError := by
  refine ⟨by decide, ?_⟩
  exact zero_total_weight_zero_division zeroWeightParams one_bar "000001" "TEST"
    (by decide) (by decide)

/-! ### Claim C2: behaviour on the empty series -/

/-- C2 counterexample: on the zero-bar series the engine does fail, but with
`IndexError` (from `iloc[0]` on the empty frame) — the code defines no
`InsufficientDataError` anywhere, so the claimed exception type is wrong. -/
theorem empty_series_raises_index_error_not_insufficient :
    generate_signal defaultParams [] "000001" "TEST" = .error .indexError ∧
    PyError.indexError ≠ PyError.insufficientDataError := by
  exact ⟨rfl, by decide⟩

/-- C2 (amended): `generate_signal` under the default configuration fails
exactly when the series has zero bars — with an unhandled `IndexError`, not a
dedicated `InsufficientDataError` (no such class exists in the code) — and for
every non-empty series, however short, it returns a composite signal. -/
theorem empty_series_error_behavior (bars : List Bar) (code nm : String) :
    (bars = [] → generate_signal defaultParams bars code nm = .error .indexError) ∧
    (bars ≠ [] → ∃ sig, generate_signal defaultParams bars code nm = .ok sig) := by
  constructor
  · rintro rfl
    rfl
  · intro hne
    have hn : ¬ (calculate_all_indicators bars defaultParams).n = 0 := by
      rw [calc_n]
      simpa using hne
    have htw : ¬ total_weight_of
        (components_of defaultParams (calculate_all_indicators bars defaultParams)) = 0 := by
      rw [total_weight_components]
      norm_num [defaultParams]
    cases hgen : generate_signal defaultParams bars code nm with
    | ok s => exact ⟨s, rfl⟩
    | error e =>
      exfalso
      simp only [generate_signal, signal_from_frame] at hgen
      rw [if_neg hn, if_neg htw] at hgen
      exact Except.noConfusion hgen

/-- Witness for the amended C2: the empty series fails with `IndexError`, a
one-bar series succeeds. -/
theorem empty_series_error_behavior_witness :
    generate_signal defaultParams [] "000001" "TEST" = .error .indexError ∧
    ∃ sig, generate_signal defaultParams one_bar "000001" "TEST" = .ok sig := by
  exact ⟨(empty_series_error_behavior [] "000001" "TEST").1 rfl,
         (empty_series_error_behavior one_bar "000001" "TEST").2 (by decide)⟩

/-! ### Rolling-window guard and closure lemmas -/

@[simp] theorem PVal.pabs_nan : PVal.pabs .nan = .nan := rfl

theorem rolling_mean_short (p : Nat) (f : Nat → PVal) (i : Nat) (h : i + 1 < p) :
    rolling_mean p f i = .nan := by
  simp [rolling_mean, h]

theorem rolling_std_short (p : Nat) (f : Nat → PVal) (i : Nat) (h : i + 1 < p) :
    rolling_std p f i = .nan := by
  simp [rolling_std, h]

theorem rolling_min_short (p : Nat) (f : Nat → PVal) (i : Nat) (h : i + 1 < p) :
    rolling_min p f i = .nan := by
  simp [rolling_min, h]

theorem rolling_max_short (p : Nat) (f : Nat → PVal) (i : Nat) (h : i + 1 < p) :
    rolling_max p f i = .nan := by
  simp [rolling_max, h]

theorem mem_windowL_self (p i : Nat) (f : Nat → PVal) (hp : 0 < p) (hge : ¬ i + 1 < p) :
    f i ∈ windowL p i f := by
  simp only [windowL]
  refine List.mem_map.2 ⟨p - 1, List.mem_range.2 (by omega), ?_⟩
  congr 1
  omega

theorem rolling_mean_nan_last (p : Nat) (f : Nat → PVal) (i : Nat) (hp : 0 < p)
    (h : f i = .nan) : rolling_mean p f i = .nan := by
  unfold rolling_mean
  split
  · rfl
  · rename_i hge
    have hany : (windowL p i f).any PVal.isNan = true :=
      List.any_eq_true.2 ⟨f i, mem_windowL_self p i f hp hge, by simp [h, PVal.isNan]⟩
    simp [hany]

theorem qsign_ne_zero {b : ℚ} (hb : b ≠ 0) : qsign b ≠ 0 := by
  intro h0
  unfold qsign at h0
  split_ifs at h0 with h1
  omega

theorem PVal.ofQ_div (a b : ℚ) (hb : b ≠ 0) :
    (PVal.ofQ a).div (PVal.ofQ b) = PVal.ofQ (a / b) := by
  simp [PVal.ofQ, PVal.div, radSign, qsign_ne_zero hb, hb]

theorem PVal.pmax_ofQ (a b : ℚ) : ∃ q, (PVal.ofQ a).pmax (PVal.ofQ b) = .ofQ q := by
  unfold PVal.pmax
  split
  · exact ⟨b, rfl⟩
  · exact ⟨a, rfl⟩

theorem PVal.pabs_ofQ (a : ℚ) : ∃ q, (PVal.ofQ a).pabs = .ofQ q := by
  simp only [PVal.ofQ, PVal.pabs]
  split
  · exact ⟨-a, by norm_num [PVal.ofQ]⟩
  · exact ⟨a, rfl⟩

theorem foldl_add_ofQ (l : List PVal) (a : ℚ) (hl : ∀ x ∈ l, ∃ q, x = .ofQ q) :
    ∃ q, l.foldl PVal.add (.ofQ a) = .ofQ q := by
  induction l generalizing a with
  | nil => exact ⟨a, rfl⟩
  | cons x xs ih =>
    obtain ⟨qx, hx⟩ := hl x (by simp)
    rw [List.foldl_cons, hx, PVal.ofQ_add]
    exact ih (a + qx) (fun y hy => hl y (by simp [hy]))

theorem rolling_mean_isRat (p : Nat) (f : Nat → PVal) (i : Nat) (hp : (p : ℚ) ≠ 0)
    (hge : ¬ i + 1 < p) (hf : ∀ j, ∃ q, f j = .ofQ q) :
    ∃ q, rolling_mean p f i = .ofQ q := by
  have hwin : ∀ x ∈ windowL p i f, ∃ q, x = .ofQ q := by
    intro x hx
    simp only [windowL] at hx
    obtain ⟨k, hk, rfl⟩ := List.mem_map.1 hx
    exact hf _
  have hany : (windowL p i f).any PVal.isNan = false := by
    rw [List.any_eq_false]
    intro x hx
    obtain ⟨q, rfl⟩ := hwin x hx
    simp [PVal.ofQ, PVal.isNan]
  obtain ⟨qs, hqs⟩ := foldl_add_ofQ (windowL p i f) 0 hwin
  refine ⟨qs / p, ?_⟩
  unfold rolling_mean
  rw [if_neg hge, hany]
  simp [hqs, PVal.ofQ_div _ _ hp]

theorem rowMax3_ofQ (a b c : ℚ) : ∃ q, rowMax3 (.ofQ a) (.ofQ b) (.ofQ c) = .ofQ q := by
  have h1 : rowMax3 (.ofQ a) (.ofQ b) (.ofQ c) =
      ((PVal.ofQ a).pmax (.ofQ b)).pmax (.ofQ c) := by
    simp [rowMax3, PVal.isNan, PVal.ofQ]
  obtain ⟨q1, hq1⟩ := PVal.pmax_ofQ a b
  rw [h1, hq1]
  exact PVal.pmax_ofQ q1 c

theorem true_range_isRat (s : List Bar) (i : Nat) :
    ∃ q, true_range (highCol s) (lowCol s) (closeCol s) i = .ofQ q := by
  cases i with
  | zero =>
    refine ⟨(s.getD 0 defaultBar).high - (s.getD 0 defaultBar).low, ?_⟩
    have e1 : (highCol s 0).sub (lowCol s 0) =
        .ofQ ((s.getD 0 defaultBar).high - (s.getD 0 defaultBar).low) := by
      simp [highCol, lowCol, PVal.ofQ_sub]
    have e2 : ((highCol s 0).sub (shiftS (closeCol s) 0)).pabs = PVal.nan := by
      simp [shiftS]
    have e3 : ((lowCol s 0).sub (shiftS (closeCol s) 0)).pabs = PVal.nan := by
      simp [shiftS]
    simp only [true_range, e1, e2, e3]
    rfl
  | succ j =>
    have e1 : (highCol s (j+1)).sub (lowCol s (j+1)) =
        .ofQ ((s.getD (j+1) defaultBar).high - (s.getD (j+1) defaultBar).low) := by
      simp [highCol, lowCol, PVal.ofQ_sub]
    have e2 : (highCol s (j+1)).sub (shiftS (closeCol s) (j+1)) =
        .ofQ ((s.getD (j+1) defaultBar).high - (s.getD j defaultBar).close) := by
      simp [highCol, closeCol, shiftS, PVal.ofQ_sub]
    have e3 : (lowCol s (j+1)).sub (shiftS (closeCol s) (j+1)) =
        .ofQ ((s.getD (j+1) defaultBar).low - (s.getD j defaultBar).close) := by
      simp [lowCol, closeCol, shiftS, PVal.ofQ_sub]
    obtain ⟨q2, hq2⟩ := PVal.pabs_ofQ ((s.getD (j+1) defaultBar).high - (s.getD j defaultBar).close)
    obtain ⟨q3, hq3⟩ := PVal.pabs_ofQ ((s.getD (j+1) defaultBar).low - (s.getD j defaultBar).close)
    have : true_range (highCol s) (lowCol s) (closeCol s) (j+1) =
        rowMax3 (.ofQ ((s.getD (j+1) defaultBar).high - (s.getD (j+1) defaultBar).low))
          (.ofQ q2) (.ofQ q3) := by
      simp only [true_range, e1, e2, e3, hq2, hq3]
    rw [this]
    exact rowMax3_ofQ _ _ _

theorem atrCol_num (s : List Bar) (i : Nat) (hge : ¬ i + 1 < 14) :
    ∃ q, atrCol s i = .ofQ q := by
  show ∃ q, rolling_mean 14 (true_range (highCol s) (lowCol s) (closeCol s)) i = .ofQ q
  exact rolling_mean_isRat 14 _ i (by norm_num) hge (true_range_isRat s)

/-! ### NaN columns on the latest row of a short series -/

theorem iloc0_rsi_nan (bars : List Bar) (p : Params) (h1 : 1 ≤ bars.length)
    (h14 : bars.length < 14) :
    ((calculate_all_indicators bars p).iloc 0).rsi = .nan := by
  have hidx : (sortBars bars).length - 1 + 1 < 14 := by
    rw [length_sortBars]
    omega
  show calculate_rsi (closeCol (sortBars bars)) 14 ((sortBars bars).length - 1 - 0) = .nan
  simp [calculate_rsi, rolling_mean_short, hidx]

theorem iloc0_sma20_nan (bars : List Bar) (p : Params) (h1 : 1 ≤ bars.length)
    (h20 : bars.length < 20) :
    ((calculate_all_indicators bars p).iloc 0).sma_20 = .nan := by
  have hidx : (sortBars bars).length - 1 + 1 < 20 := by
    rw [length_sortBars]
    omega
  show calculate_sma (closeCol (sortBars bars)) 20 ((sortBars bars).length - 1 - 0) = .nan
  simp [calculate_sma, rolling_mean_short, hidx]

theorem iloc0_bbpct_nan (bars : List Bar) (p : Params) (h1 : 1 ≤ bars.length)
    (h20 : bars.length < 20) :
    ((calculate_all_indicators bars p).iloc 0).bb_pct = .nan := by
  have hidx : (sortBars bars).length - 1 + 1 < 20 := by
    rw [length_sortBars]
    omega
  show bbPctCol (sortBars bars) ((sortBars bars).length - 1 - 0) = .nan
  simp [bbPctCol, bbUpperCol, bbLowerCol, calculate_bollinger_bands, calculate_sma,
    rolling_mean_short, rolling_std_short, hidx]

theorem iloc0_volr_nan (bars : List Bar) (p : Params) (h1 : 1 ≤ bars.length)
    (h20 : bars.length < 20) :
    ((calculate_all_indicators bars p).iloc 0).volume_ratio = .nan := by
  have hidx : (sortBars bars).length - 1 + 1 < 20 := by
    rw [length_sortBars]
    omega
  show volumeRatioCol (sortBars bars) ((sortBars bars).length - 1 - 0) = .nan
  simp [volumeRatioCol, volumeSmaCol, calculate_sma, rolling_mean_short, hidx]

theorem iloc0_stochk_nan (bars : List Bar) (p : Params) (h1 : 1 ≤ bars.length)
    (h14 : bars.length < 14) :
    ((calculate_all_indicators bars p).iloc 0).stoch_k = .nan := by
  have hidx : (sortBars bars).length - 1 + 1 < 14 := by
    rw [length_sortBars]
    omega
  show (calculate_stochastic (highCol (sortBars bars)) (lowCol (sortBars bars))
      (closeCol (sortBars bars)) 14 3).1 ((sortBars bars).length - 1 - 0) = .nan
  simp [calculate_stochastic, rolling_min_short, rolling_max_short, hidx]

theorem iloc0_adx_nan (bars : List Bar) (p : Params) (h1 : 1 ≤ bars.length)
    (h14 : bars.length < 14) :
    ((calculate_all_indicators bars p).iloc 0).adx = .nan := by
  have hidx : (sortBars bars).length - 1 + 1 < 14 := by
    rw [length_sortBars]
    omega
  show (calculate_adx (highCol (sortBars bars)) (lowCol (sortBars bars))
      (closeCol (sortBars bars)) 14).1 ((sortBars bars).length - 1 - 0) = .nan
  simp [calculate_adx, rolling_mean_short, hidx]

/-! ### Analyzer degradation on missing data, score bounds, neutral risk -/

theorem analyze_rsi_nan_signal (p : Params) (row : Row) (h : row.rsi = .nan) :
    (analyze_rsi p row).signal = .NEUTRAL := by
  simp [analyze_rsi, h, PVal.isNan]

theorem analyze_bollinger_nan_signal (p : Params) (row : Row) (h : row.bb_pct = .nan) :
    (analyze_bollinger p row).signal = .NEUTRAL := by
  simp [analyze_bollinger, h, PVal.isNan]

theorem analyze_trend_nan_signal (p : Params) (row : Row) (h : row.sma_20 = .nan) :
    (analyze_trend p row).signal = .NEUTRAL := by
  simp [analyze_trend, h, PVal.isNan]

theorem analyze_volume_nan_signal (p : Params) (row : Row) (h : row.volume_ratio = .nan) :
    (analyze_volume p row).signal = .NEUTRAL := by
  simp [analyze_volume, h, PVal.isNan]

theorem analyze_stochastic_nan_signal (p : Params) (row : Row) (h : row.stoch_k = .nan) :
    (analyze_stochastic p row).signal = .NEUTRAL := by
  simp [analyze_stochastic, h, PVal.isNan]

theorem analyze_adx_nan_signal (p : Params) (row : Row) (h : row.adx = .nan) :
    (analyze_adx p row).signal = .NEUTRAL := by
  simp [analyze_adx, h, PVal.isNan]

theorem signal_to_score_bounds (st : SignalType) :
    -2 ≤ signal_to_score st ∧ signal_to_score st ≤ 2 := by
  cases st <;> norm_num [signal_to_score]

theorem risk_levels_neutral (p : Params) (price atr : PVal) :
    calculate_risk_levels p price .NEUTRAL atr = (none, none, none) := by
  simp [calculate_risk_levels, truthyOpt]

/-! ### Claim C1: undefined ATR leaves the risk levels null -/

/-- C1: for every non-empty series whose ATR on the latest row is undefined
(insufficient history), `generate_signal` with the default configuration
returns a `TradingSignal` whose stop-loss and take-profit are `None` — a
composite signal and confidence are still produced.  (An undefined ATR forces
fewer than 14 bars, so every component except MACD degrades to NEUTRAL and the
composite is NEUTRAL, whose risk levels are `None`.) -/
theorem atr_undefined_risk_levels_null (bars : List Bar) (code nm : String)
    (hne : bars ≠ [])
    (hatr : (calculate_all_indicators bars defaultParams).atr
        ((calculate_all_indicators bars defaultParams).n - 1) = .nan) :
    ∃ sig, generate_signal defaultParams bars code nm = .ok sig ∧
      sig.stop_loss = none ∧ sig.take_profit = none ∧ sig.risk_reward = none := by
  have h1 : 1 ≤ bars.length := by
    cases bars with
    | nil => exact absurd rfl hne
    | cons b l => simp
  have h14 : bars.length < 14 := by
    by_contra hge
    push_neg at hge
    have hatr' : atrCol (sortBars bars) ((sortBars bars).length - 1) = .nan := hatr
    obtain ⟨q, hq⟩ := atrCol_num (sortBars bars) ((sortBars bars).length - 1)
      (by rw [length_sortBars]; omega)
    rw [hq] at hatr'
    exact absurd hatr' (by simp [PVal.ofQ])
  have h20 : bars.length < 20 := by omega
  set t := calculate_all_indicators bars defaultParams with ht
  have hs1 := analyze_rsi_nan_signal defaultParams (t.iloc 0)
    (iloc0_rsi_nan bars defaultParams h1 h14)
  have hs3 := analyze_bollinger_nan_signal defaultParams (t.iloc 0)
    (iloc0_bbpct_nan bars defaultParams h1 h20)
  have hs4 := analyze_trend_nan_signal defaultParams (t.iloc 0)
    (iloc0_sma20_nan bars defaultParams h1 h20)
  have hs5 := analyze_volume_nan_signal defaultParams (t.iloc 0)
    (iloc0_volr_nan bars defaultParams h1 h20)
  have hs6 := analyze_stochastic_nan_signal defaultParams (t.iloc 0)
    (iloc0_stochk_nan bars defaultParams h1 h14)
  have hs7 := analyze_adx_nan_signal defaultParams (t.iloc 0)
    (iloc0_adx_nan bars defaultParams h1 h14)
  have hmb := signal_to_score_bounds
    ((analyze_macd defaultParams (t.iloc 0)
      (if 1 < t.n then some (t.iloc 1) else none)).signal)
  have hws : weighted_score_of (components_of defaultParams t) =
      signal_to_score ((analyze_macd defaultParams (t.iloc 0)
        (if 1 < t.n then some (t.iloc 1) else none)).signal) * 2 / 11 := by
    simp only [weighted_score_of, total_weight_of, components_of,
      List.map_cons, List.map_nil, List.sum_cons, List.sum_nil]
    rw [hs1, hs3, hs4, hs5, hs6, hs7]
    rw [analyze_rsi_weight, analyze_macd_weight, analyze_bollinger_weight,
      analyze_trend_weight, analyze_volume_weight, analyze_stochastic_weight,
      analyze_adx_weight]
    norm_num [signal_to_score, defaultParams]
    ring
  have hcomp : score_to_signal (weighted_score_of (components_of defaultParams t)) =
      .NEUTRAL := by
    rw [hws]
    unfold score_to_signal
    rw [if_neg (by nlinarith [hmb.1, hmb.2]), if_neg (by nlinarith [hmb.1, hmb.2]),
      if_neg (by nlinarith [hmb.1, hmb.2]), if_neg (by nlinarith [hmb.1, hmb.2])]
  have hn : ¬ t.n = 0 := by
    rw [ht, calc_n]
    omega
  have htw : ¬ total_weight_of (components_of defaultParams t) = 0 := by
    rw [total_weight_components]
    norm_num [defaultParams]
  cases hgen : generate_signal defaultParams bars code nm with
  | error e =>
    exfalso
    simp only [generate_signal, signal_from_frame] at hgen
    rw [← ht, if_neg hn, if_neg htw] at hgen
    exact Except.noConfusion hgen
  | ok sig =>
    have hg0 : generate_signal defaultParams bars code nm = .ok sig := hgen
    simp only [generate_signal, signal_from_frame] at hgen
    rw [← ht, if_neg hn, if_neg htw] at hgen
    injection hgen with h
    refine ⟨sig, rfl, ?_, ?_, ?_⟩
    · rw [← h]
      show (calculate_risk_levels defaultParams (t.iloc 0).close
        (score_to_signal (weighted_score_of (components_of defaultParams t)))
        ((t.iloc 0).atr)).1 = none
      rw [hcomp, risk_levels_neutral]
    · rw [← h]
      show (calculate_risk_levels defaultParams (t.iloc 0).close
        (score_to_signal (weighted_score_of (components_of defaultParams t)))
        ((t.iloc 0).atr)).2.1 = none
      rw [hcomp, risk_levels_neutral]
    · rw [← h]
      show (calculate_risk_levels defaultParams (t.iloc 0).close
        (score_to_signal (weighted_score_of (components_of defaultParams t)))
        ((t.iloc 0).atr)).2.2 = none
      rw [hcomp, risk_levels_neutral]

/-- Witness for C1: a three-bar series, whose latest ATR is undefined. -/
theorem atr_undefined_risk_levels_null_witness :
    three_bars ≠ [] ∧
    (calculate_all_indicators three_bars defaultParams).atr
      ((calculate_all_indicators three_bars defaultParams).n - 1) = .nan ∧
    ∃ sig, generate_signal defaultParams three_bars "000001" "TEST" = .ok sig ∧
      sig.stop_loss = none ∧ sig.take_profit = none ∧ sig.risk_reward = none := by
  refine ⟨by decide, by decide, ?_⟩
  exact atr_undefined_risk_levels_null three_bars "000001" "TEST" (by decide) (by decide)

/-! ### Claim C5: the flat 60-bar scenario -/

/-- C5 counterexample: on the flat series of 60 identical closes of 10.00 the
engine's confidence is exactly `600/11 - 25·√(6/49) ≈ 45.8` (the trend
component votes SELL because `close > sma` fails on equality, all six other
components are NEUTRAL), which is not below 30 — the claimed bound
`confidence < 30` is false. -/
theorem flat_series_confidence_not_below_30 :
    ((generate_signal defaultParams flat_series "000001" "TEST").toOption.map
      TradingSignal.confidence = some (PVal.num (600/11) (-25) (6/49))) ∧
    ¬ (PVal.num (600/11) (-25) (6/49)).toReal < 30 := by
  refine ⟨by decide, ?_⟩
  rw [not_lt]
  have harg : ((6/49 : ℚ) : ℝ) = (6/49 : ℝ) := by norm_num
  have hs0 : (0:ℝ) ≤ Real.sqrt (6/49) := Real.sqrt_nonneg _
  have hsq : Real.sqrt ((6/49 : ℚ) : ℝ) ≤ 54/55 := by
    rw [harg]
    calc Real.sqrt (6/49 : ℝ) ≤ Real.sqrt ((54/55 : ℝ)^2) :=
          Real.sqrt_le_sqrt (by norm_num)
      _ = 54/55 := Real.sqrt_sq (by norm_num)
  show (30:ℝ) ≤ ((600/11 : ℚ) : ℝ) + ((-25 : ℚ) : ℝ) * Real.sqrt ((6/49 : ℚ) : ℝ)
  push_cast
  nlinarith [hsq, hs0]

/-- C5 (amended): for the flat series of 60 identical closes of 10.00,
`generate_signal` returns composite NEUTRAL with null stop-loss and
take-profit — but the confidence is `600/11 - 25·√(6/49) ≈ 45.8`: below 50,
not below 30 as claimed (perfect component agreement alone already yields
confidence 50, so sub-30 confidence is impossible for an all-neutral outcome). -/
theorem flat_series_signal_confidence :
    ((generate_signal defaultParams flat_series "000001" "TEST").toOption.map
        TradingSignal.signal = some .NEUTRAL ∧
      (generate_signal defaultParams flat_series "000001" "TEST").toOption.map
        TradingSignal.stop_loss = some none ∧
      (generate_signal defaultParams flat_series "000001" "TEST").toOption.map
        TradingSignal.take_profit = some none ∧
      (generate_signal defaultParams flat_series "000001" "TEST").toOption.map
        TradingSignal.confidence = some (PVal.num (600/11) (-25) (6/49))) ∧
    (30:ℝ) ≤ (PVal.num (600/11) (-25) (6/49)).toReal ∧
    (PVal.num (600/11) (-25) (6/49)).toReal < 50 := by
  refine ⟨by decide, ?_, ?_⟩
  · have harg : ((6/49 : ℚ) : ℝ) = (6/49 : ℝ) := by norm_num
    have hs0 : (0:ℝ) ≤ Real.sqrt (6/49) := Real.sqrt_nonneg _
    have hsq : Real.sqrt ((6/49 : ℚ) : ℝ) ≤ 54/55 := by
      rw [harg]
      calc Real.sqrt (6/49 : ℝ) ≤ Real.sqrt ((54/55 : ℝ)^2) :=
            Real.sqrt_le_sqrt (by norm_num)
        _ = 54/55 := Real.sqrt_sq (by norm_num)
    show (30:ℝ) ≤ ((600/11 : ℚ) : ℝ) + ((-25 : ℚ) : ℝ) * Real.sqrt ((6/49 : ℚ) : ℝ)
    push_cast
    nlinarith [hsq, hs0]
  · have harg : ((6/49 : ℚ) : ℝ) = (6/49 : ℝ) := by norm_num
    have hs0 : (0:ℝ) ≤ Real.sqrt ((6/49 : ℚ) : ℝ) := Real.sqrt_nonneg _
    have hsq : Real.sqrt ((6/49 : ℚ) : ℝ) ^ 2 = ((6/49 : ℚ) : ℝ) :=
      Real.sq_sqrt (by rw [harg]; norm_num)
    show ((600/11 : ℚ) : ℝ) + ((-25 : ℚ) : ℝ) * Real.sqrt ((6/49 : ℚ) : ℝ) < 50
    rw [harg] at hsq hs0
    push_cast
    nlinarith [hsq, hs0, sq_nonneg (Real.sqrt (6/49 : ℝ) - 2/11),
      sq_nonneg (Real.sqrt (6/49 : ℝ) + 2/11)]

/-! ### Evaluating rolling means on rational columns -/

theorem foldl_add_ofQ_map (l : List ℚ) (a : ℚ) :
    (l.map PVal.ofQ).foldl PVal.add (.ofQ a) = .ofQ (a + l.sum) := by
  induction l generalizing a with
  | nil => simp
  | cons x xs ih =>
    simp only [List.map_cons, List.foldl_cons, PVal.ofQ_add, ih, List.sum_cons]
    ring_nf

theorem rolling_mean_ofQ (p i : Nat) (g : Nat → ℚ) (hp : (p : ℚ) ≠ 0) (hge : ¬ i + 1 < p) :
    rolling_mean p (fun j => PVal.ofQ (g j)) i =
      .ofQ (((List.range p).map (fun k => g (i + 1 - p + k))).sum / p) := by
  have hwin : windowL p i (fun j => PVal.ofQ (g j)) =
      ((List.range p).map (fun k => g (i + 1 - p + k))).map PVal.ofQ := by
    simp [windowL, List.map_map]
  have hany : (windowL p i (fun j => PVal.ofQ (g j))).any PVal.isNan = false := by
    rw [hwin, List.any_eq_false]
    intro x hx
    obtain ⟨q, _, rfl⟩ := List.mem_map.1 hx
    simp [PVal.ofQ, PVal.isNan]
  unfold rolling_mean
  rw [if_neg hge, hany]
  rw [hwin, foldl_add_ofQ_map]
  simp [PVal.ofQ_div _ _ hp]

theorem list_sum_le (l : List ℚ) (M : ℚ) (h : ∀ x ∈ l, x ≤ M) :
    l.sum ≤ l.length * M := by
  induction l with
  | nil => simp
  | cons x xs ih =>
    simp only [List.sum_cons, List.length_cons]
    have hx := h x (by simp)
    have hxs := ih (fun y hy => h y (by simp [hy]))
    push_cast
    nlinarith [hx, hxs]

theorem list_sum_lt (l : List ℚ) (M : ℚ) (h : ∀ x ∈ l, x ≤ M)
    (hex : ∃ x ∈ l, x < M) : l.sum < l.length * M := by
  induction l with
  | nil => simp at hex
  | cons x xs ih =>
    simp only [List.sum_cons, List.length_cons]
    obtain ⟨y, hy, hylt⟩ := hex
    rcases List.mem_cons.1 hy with rfl | hmem
    · have hxs := list_sum_le xs M (fun z hz => h z (by simp [hz]))
      push_cast
      nlinarith [hylt, hxs]
    · have hx := h x (by simp)
      have hxs := ih (fun z hz => h z (by simp [hz])) ⟨y, hmem, hylt⟩
      push_cast
      nlinarith [hx, hxs]

/-! ### Claim C6: the rising 60-bar scenario -/

/-- C6 (amended): for every strictly rising series of 60 closes from 10.00 to
20.00, the trend component of `generate_signal` is BUY with vote score 2 — not
STRONG_BUY, because with only 60 bars `sma_200` is undefined and only two of
the four trend checks vote — and whenever the final bar's volume ratio exceeds
1.5 (not merely "above average"), the volume component is BUY or STRONG_BUY. -/
theorem rising_series_trend_volume (bars : List Bar) (code nm : String)
    (hlen : bars.length = 60)
    (hmono : ∀ i, i < 59 →
      closeQ (sortBars bars) i < closeQ (sortBars bars) (i + 1))
    (hfirst : closeQ (sortBars bars) 0 = 10)
    (hlast : closeQ (sortBars bars) 59 = 20)
    (r : ℚ)
    (hvr : ((calculate_all_indicators bars defaultParams).iloc 0).volume_ratio = .ofQ r)
    (hr : 3/2 < r) :
    ∃ sig, generate_signal defaultParams bars code nm = .ok sig ∧
      (sig.components.map SignalComponent.signal)[3]? = some .BUY ∧
      ((sig.components.map SignalComponent.signal)[4]? = some .BUY ∨
       (sig.components.map SignalComponent.signal)[4]? = some .STRONG_BUY) := by
  have hsl : (sortBars bars).length = 60 := by rw [length_sortBars, hlen]
  have hidx : (sortBars bars).length - 1 - 0 = 59 := by rw [hsl]
  have hkey : ∀ j, j < 60 → ∀ i, i < j →
      closeQ (sortBars bars) i < closeQ (sortBars bars) j := by
    intro j
    induction j with
    | zero => exact fun _ i hi => absurd hi (Nat.not_lt_zero i)
    | succ k ih =>
      intro hk i hi
      have hstep : closeQ (sortBars bars) k < closeQ (sortBars bars) (k + 1) :=
        hmono k (by omega)
      rcases Nat.lt_succ_iff_lt_or_eq.1 hi with h | h
      · exact lt_trans (ih (by omega) i h) hstep
      · rw [h]
        exact hstep
  have hclosev : ((calculate_all_indicators bars defaultParams).iloc 0).close = .ofQ 20 := by
    show closeCol (sortBars bars) ((sortBars bars).length - 1 - 0) = .ofQ 20
    rw [hidx]
    show PVal.ofQ (closeQ (sortBars bars) 59) = .ofQ 20
    rw [hlast]
  have hm20 : ∃ m, ((calculate_all_indicators bars defaultParams).iloc 0).sma_20 = .ofQ m ∧
      m < 20 := by
    have e : ((calculate_all_indicators bars defaultParams).iloc 0).sma_20 =
        .ofQ (((List.range 20).map (fun k => closeQ (sortBars bars) (59 + 1 - 20 + k))).sum / 20) := by
      show calculate_sma (closeCol (sortBars bars)) 20 ((sortBars bars).length - 1 - 0) = _
      rw [hidx]
      exact rolling_mean_ofQ 20 59 (closeQ (sortBars bars)) (by norm_num) (by omega)
    refine ⟨_, e, ?_⟩
    rw [div_lt_iff (by norm_num : (0:ℚ) < 20)]
    have hub : ∀ x ∈ (List.range 20).map (fun k => closeQ (sortBars bars) (59 + 1 - 20 + k)),
        x ≤ 20 := by
      intro x hx
      obtain ⟨k, hk, rfl⟩ := List.mem_map.1 hx
      have hk20 : k < 20 := List.mem_range.1 hk
      have hidx2 : 59 + 1 - 20 + k = 40 + k := by omega
      rw [hidx2]
      rcases Nat.lt_or_ge (40 + k) 59 with hlt | hge
      · have hlt2 := hkey 59 (by norm_num) (40 + k) hlt
        rw [hlast] at hlt2
        linarith
      · have heq : 40 + k = 59 := by omega
        rw [heq, hlast]
    have hex : ∃ x ∈ (List.range 20).map (fun k => closeQ (sortBars bars) (59 + 1 - 20 + k)),
        x < 20 := by
      refine ⟨closeQ (sortBars bars) (59 + 1 - 20 + 0),
        List.mem_map.2 ⟨0, List.mem_range.2 (by norm_num), rfl⟩, ?_⟩
      have hidx2 : 59 + 1 - 20 + 0 = 40 := by norm_num
      rw [hidx2]
      have hlt2 := hkey 59 (by norm_num) 40 (by norm_num)
      rw [hlast] at hlt2
      exact hlt2
    have hs := list_sum_lt _ 20 hub hex
    have hlength : ((List.range 20).map
        (fun k => closeQ (sortBars bars) (59 + 1 - 20 + k))).length = 20 := by simp
    rw [hlength] at hs
    push_cast at hs
    linarith
  have hm50 : ∃ m, ((calculate_all_indicators bars defaultParams).iloc 0).sma_50 = .ofQ m ∧
      m < 20 := by
    have e : ((calculate_all_indicators bars defaultParams).iloc 0).sma_50 =
        .ofQ (((List.range 50).map (fun k => closeQ (sortBars bars) (59 + 1 - 50 + k))).sum / 50) := by
      show calculate_sma (closeCol (sortBars bars)) 50 ((sortBars bars).length - 1 - 0) = _
      rw [hidx]
      exact rolling_mean_ofQ 50 59 (closeQ (sortBars bars)) (by norm_num) (by omega)
    refine ⟨_, e, ?_⟩
    rw [div_lt_iff (by norm_num : (0:ℚ) < 50)]
    have hub : ∀ x ∈ (List.range 50).map (fun k => closeQ (sortBars bars) (59 + 1 - 50 + k)),
        x ≤ 20 := by
      intro x hx
      obtain ⟨k, hk, rfl⟩ := List.mem_map.1 hx
      have hk50 : k < 50 := List.mem_range.1 hk
      have hidx2 : 59 + 1 - 50 + k = 10 + k := by omega
      rw [hidx2]
      rcases Nat.lt_or_ge (10 + k) 59 with hlt | hge
      · have hlt2 := hkey 59 (by norm_num) (10 + k) hlt
        rw [hlast] at hlt2
        linarith
      · have heq : 10 + k = 59 := by omega
        rw [heq, hlast]
    have hex : ∃ x ∈ (List.range 50).map (fun k => closeQ (sortBars bars) (59 + 1 - 50 + k)),
        x < 20 := by
      refine ⟨closeQ (sortBars bars) (59 + 1 - 50 + 0),
        List.mem_map.2 ⟨0, List.mem_range.2 (by norm_num), rfl⟩, ?_⟩
      have hidx2 : 59 + 1 - 50 + 0 = 10 := by norm_num
      rw [hidx2]
      have hlt2 := hkey 59 (by norm_num) 10 (by norm_num)
      rw [hlast] at hlt2
      exact hlt2
    have hs := list_sum_lt _ 20 hub hex
    have hlength : ((List.range 50).map
        (fun k => closeQ (sortBars bars) (59 + 1 - 50 + k))).length = 50 := by simp
    rw [hlength] at hs
    push_cast at hs
    linarith
  have h200 : ((calculate_all_indicators bars defaultParams).iloc 0).sma_200 = .nan := by
    show calculate_sma (closeCol (sortBars bars)) 200 ((sortBars bars).length - 1 - 0) = .nan
    have hc : (sortBars bars).length - 1 + 1 < 200 := by
      rw [hsl]
      omega
    simp [calculate_sma, rolling_mean_short, hc]
  have hch : ∃ ch, ((calculate_all_indicators bars defaultParams).iloc 0).change_1d = .ofQ ch ∧
      0 < ch := by
    have h58a : 10 < closeQ (sortBars bars) 58 := by
      have h0 := hkey 58 (by norm_num) 0 (by norm_num)
      rw [hfirst] at h0
      exact h0
    have h58b : closeQ (sortBars bars) 58 < 20 := by
      have h0 := hkey 59 (by norm_num) 58 (by norm_num)
      rw [hlast] at h0
      exact h0
    have hne58 : closeQ (sortBars bars) 58 ≠ 0 := by linarith
    have e : ((calculate_all_indicators bars defaultParams).iloc 0).change_1d =
        .ofQ ((20 / closeQ (sortBars bars) 58 - 1) * 100) := by
      show change1dCol (sortBars bars) ((sortBars bars).length - 1 - 0) = _
      rw [hidx]
      have e1 : shiftS (closeCol (sortBars bars)) 59 = closeCol (sortBars bars) 58 := rfl
      have e2 : closeCol (sortBars bars) 59 = .ofQ 20 := by
        show PVal.ofQ (closeQ (sortBars bars) 59) = _
        rw [hlast]
      have e3 : closeCol (sortBars bars) 58 = .ofQ (closeQ (sortBars bars) 58) := rfl
      show (pct_change (closeCol (sortBars bars)) 59).mul (.ofQ 100) = _
      simp only [pct_change, e1, e2, e3]
      rw [PVal.ofQ_div _ _ hne58, PVal.ofQ_sub, PVal.ofQ_mul]
    refine ⟨_, e, ?_⟩
    have hpos : (0:ℚ) < closeQ (sortBars bars) 58 := by linarith
    have hgt1 : 1 < 20 / closeQ (sortBars bars) 58 := (one_lt_div hpos).2 (by linarith)
    nlinarith
  obtain ⟨m20, e20, l20⟩ := hm20
  obtain ⟨m50, e50, l50⟩ := hm50
  have htrend : (analyze_trend defaultParams
      ((calculate_all_indicators bars defaultParams).iloc 0)).signal = .BUY := by
    simp [analyze_trend, e20, e50, h200, hclosev, PVal.ofQ_gt, l20, l50]
  obtain ⟨ch, ech, chpos⟩ := hch
  have hvol : ((analyze_volume defaultParams
        ((calculate_all_indicators bars defaultParams).iloc 0)).signal = .BUY) ∨
      ((analyze_volume defaultParams
        ((calculate_all_indicators bars defaultParams).iloc 0)).signal = .STRONG_BUY) := by
    rcases le_or_lt r 2 with hr2 | hr2
    · left
      simp [analyze_volume, hvr, ech, PVal.ofQ_gt, not_lt.2 hr2, hr, chpos]
    · right
      simp [analyze_volume, hvr, ech, PVal.ofQ_gt, hr2, chpos]
  have hn : ¬ (calculate_all_indicators bars defaultParams).n = 0 := by
    rw [calc_n]
    omega
  have htw : ¬ total_weight_of
      (components_of defaultParams (calculate_all_indicators bars defaultParams)) = 0 := by
    rw [total_weight_components]
    norm_num [defaultParams]
  cases hgen : generate_signal defaultParams bars code nm with
  | error e =>
    exfalso
    simp only [generate_signal, signal_from_frame] at hgen
    rw [if_neg hn, if_neg htw] at hgen
    exact Except.noConfusion hgen
  | ok sig =>
    simp only [generate_signal, signal_from_frame] at hgen
    rw [if_neg hn, if_neg htw] at hgen
    injection hgen with h
    refine ⟨sig, rfl, ?_, ?_⟩
    · rw [← h]
      show ((components_of defaultParams
        (calculate_all_indicators bars defaultParams)).map SignalComponent.signal)[3]? =
          some SignalType.BUY
      have e : ((components_of defaultParams
          (calculate_all_indicators bars defaultParams)).map SignalComponent.signal)[3]? =
          some ((analyze_trend defaultParams
            ((calculate_all_indicators bars defaultParams).iloc 0)).signal) := rfl
      rw [e, htrend]
    · rcases hvol with hv | hv
      · left
        rw [← h]
        show ((components_of defaultParams
          (calculate_all_indicators bars defaultParams)).map SignalComponent.signal)[4]? =
            some SignalType.BUY
        have e : ((components_of defaultParams
            (calculate_all_indicators bars defaultParams)).map SignalComponent.signal)[4]? =
            some ((analyze_volume defaultParams
              ((calculate_all_indicators bars defaultParams).iloc 0)).signal) := rfl
        rw [e, hv]
      · right
        rw [← h]
        show ((components_of defaultParams
          (calculate_all_indicators bars defaultParams)).map SignalComponent.signal)[4]? =
            some SignalType.STRONG_BUY
        have e : ((components_of defaultParams
            (calculate_all_indicators bars defaultParams)).map SignalComponent.signal)[4]? =
            some ((analyze_volume defaultParams
              ((calculate_all_indicators bars defaultParams).iloc 0)).signal) := rfl
        rw [e, hv]

/-- C6 counterexample: `rising_series` is a monotonically (strictly) rising
60-bar series of closes from 10.00 to 20.00 whose final bar's volume is above
the 20-bar average (ratio 40/21 ≈ 1.9), yet the trend component produced by
`generate_signal` is BUY — not STRONG_BUY — and in fact the composite signal is
NEUTRAL with a null stop-loss, so the claimed conjunction fails. -/
theorem rising_series_trend_not_strong_buy :
    (rising_series.length = 60 ∧
     (∀ i, i < 59 →
       closeQ (sortBars rising_series) i < closeQ (sortBars rising_series) (i + 1)) ∧
     closeQ (sortBars rising_series) 0 = 10 ∧
     closeQ (sortBars rising_series) 59 = 20 ∧
     ((calculate_all_indicators rising_series defaultParams).iloc 0).volume_ratio =
       .ofQ (40/21) ∧
     (1 : ℚ) < 40/21) ∧
    ((generate_signal defaultParams rising_series "000001" "TEST").toOption.map
      (fun s => (s.components.map SignalComponent.signal)[3]?) = some (some .BUY)) ∧
    SignalType.BUY ≠ SignalType.STRONG_BUY ∧
    ((generate_signal defaultParams rising_series "000001" "TEST").toOption.map
      TradingSignal.signal = some .NEUTRAL) ∧
    ((generate_signal defaultParams rising_series "000001" "TEST").toOption.map
      TradingSignal.stop_loss = some none) := by
  decide

/-- Witness for the amended C6 at the concrete rising series. -/
theorem rising_series_trend_volume_witness :
    ∃ sig, generate_signal defaultParams rising_series "000001" "TEST" = .ok sig ∧
      (sig.components.map SignalComponent.signal)[3]? = some .BUY ∧
      ((sig.components.map SignalComponent.signal)[4]? = some .BUY ∨
       (sig.components.map SignalComponent.signal)[4]? = some .STRONG_BUY) := by
  exact rising_series_trend_volume rising_series "000001" "TEST" (by decide) (by decide)
    (by decide) (by decide) (40/21) (by decide) (by norm_num)

/-! ### Claim C4: weighted-score and confidence bounds, and the confidence formula -/

theorem ratSqrt?_zero : ratSqrt? 0 = some 0 := by decide

theorem ratSqrt?_spec {q s : ℚ} (h : ratSqrt? q = some s) : 0 ≤ s ∧ s ^ 2 = q := by
  simp only [ratSqrt?] at h
  split_ifs at h with h1 h2
  · obtain ⟨hn, hd⟩ := h2
    injection h with hs
    subst hs
    have h1' : 0 ≤ q.num := not_lt.1 h1
    have hdpos : 0 < q.den := q.pos
    have hsd0 : isqrtN q.den ≠ 0 := by
      intro h0
      rw [h0] at hd
      simp at hd
      omega
    have e1 : ((q.num.toNat : ℕ) : ℚ) = (q.num : ℚ) := by
      exact_mod_cast Int.toNat_of_nonneg h1'
    have hnQ : (isqrtN q.num.toNat : ℚ) * (isqrtN q.num.toNat : ℚ) = (q.num : ℚ) := by
      rw [← e1]
      exact_mod_cast hn
    have hdQ : (isqrtN q.den : ℚ) * (isqrtN q.den : ℚ) = (q.den : ℚ) := by
      exact_mod_cast hd
    have hsdQ : ((isqrtN q.den : ℕ) : ℚ) ≠ 0 := Nat.cast_ne_zero.mpr hsd0
    have hden0 : ((q.den : ℕ) : ℚ) ≠ 0 := by
      exact_mod_cast hdpos.ne'
    have hq : (q.num : ℚ) = q * (q.den : ℚ) := (div_eq_iff hden0).mp (Rat.num_div_den q)
    constructor
    · rw [Rat.mkRat_eq_div]
      positivity
    · rw [Rat.mkRat_eq_div, div_pow, div_eq_iff (pow_ne_zero 2 hsdQ)]
      calc (isqrtN q.num.toNat : ℚ) ^ 2 = (q.num : ℚ) := by rw [pow_two]; exact hnQ
        _ = q * (q.den : ℚ) := hq
        _ = q * (isqrtN q.den : ℚ) ^ 2 := by rw [pow_two, hdQ]

theorem sum_sq_sub_const (xs : List ℚ) (c : ℚ) :
    (xs.map (fun x => (x - c) ^ 2)).sum =
      (xs.map (fun x => x ^ 2)).sum - 2 * c * xs.sum + (xs.length : ℚ) * c ^ 2 := by
  induction xs with
  | nil => simp
  | cons a l ih =>
    simp only [List.map_cons, List.sum_cons, List.length_cons]
    rw [ih]
    push_cast
    ring

theorem popVar_nonneg (xs : List ℚ) : 0 ≤ popVar xs := by
  simp only [popVar]
  apply div_nonneg _ (by positivity)
  apply List.sum_nonneg
  intro x hx
  rw [List.mem_map] at hx
  obtain ⟨y, _, rfl⟩ := hx
  positivity

theorem popVar_le_four (xs : List ℚ) (h : ∀ x ∈ xs, -2 ≤ x ∧ x ≤ 2) :
    popVar xs ≤ 4 := by
  rcases eq_or_ne xs [] with rfl | hne
  · norm_num [popVar]
  · have hn : (0 : ℚ) < xs.length := by
      have := List.length_pos.mpr hne
      exact_mod_cast this
    simp only [popVar]
    rw [div_le_iff₀ hn, sum_sq_sub_const]
    have hb : ∀ x ∈ xs.map (fun x => x ^ 2), x ≤ 4 := by
      intro x hx
      rw [List.mem_map] at hx
      obtain ⟨y, hy, rfl⟩ := hx
      obtain ⟨hy1, hy2⟩ := h y hy
      nlinarith
    have hsq := list_sum_le (xs.map (fun x => x ^ 2)) 4 hb
    rw [List.length_map] at hsq
    have hμx : xs.sum / (xs.length : ℚ) * (xs.length : ℚ) = xs.sum :=
      div_mul_cancel₀ _ (ne_of_gt hn)
    have hkey : 2 * (xs.sum / (xs.length : ℚ)) * xs.sum =
        2 * (xs.length : ℚ) * (xs.sum / (xs.length : ℚ)) ^ 2 := by
      field_simp
      ring
    nlinarith [hsq, hkey, mul_nonneg hn.le (sq_nonneg (xs.sum / (xs.length : ℚ)))]

theorem sum_map_weight_mul (l : List SignalComponent) (b : ℚ) :
    (l.map (fun c => b * c.weight)).sum = b * (l.map SignalComponent.weight).sum := by
  induction l with
  | nil => simp
  | cons a t ih =>
    simp only [List.map_cons, List.sum_cons, ih]
    ring

theorem weighted_score_of_bounds (comps : List SignalComponent)
    (hw : ∀ c ∈ comps, 0 ≤ c.weight) (hpos : 0 < total_weight_of comps) :
    -2 ≤ weighted_score_of comps ∧ weighted_score_of comps ≤ 2 := by
  have hlo : (comps.map (fun c => (-2) * c.weight)).sum ≤
      (comps.map (fun c => signal_to_score c.signal * c.weight)).sum := by
    apply List.sum_le_sum
    intro c hc
    have h1 := (signal_to_score_bounds c.signal).1
    have h2 := hw c hc
    nlinarith
  have hhi : (comps.map (fun c => signal_to_score c.signal * c.weight)).sum ≤
      (comps.map (fun c => 2 * c.weight)).sum := by
    apply List.sum_le_sum
    intro c hc
    have h1 := (signal_to_score_bounds c.signal).2
    have h2 := hw c hc
    nlinarith
  rw [sum_map_weight_mul] at hlo hhi
  constructor
  · rw [weighted_score_of, le_div_iff₀ hpos]
    have : (-2) * total_weight_of comps ≤
        (comps.map (fun c => signal_to_score c.signal * c.weight)).sum := by
      rw [total_weight_of]
      exact hlo
    linarith
  · rw [weighted_score_of, div_le_iff₀ hpos]
    have : (comps.map (fun c => signal_to_score c.signal * c.weight)).sum ≤
        2 * total_weight_of comps := by
      rw [total_weight_of]
      exact hhi
    linarith

theorem pymin_ofQ_100 (q : ℚ) (hq : q ≤ 100) :
    pymin (PVal.ofQ 100) (PVal.ofQ q) = PVal.ofQ q := by
  unfold pymin
  rw [PVal.ofQ_lt]
  by_cases hlt : q < 100
  · rw [if_pos (by simpa using hlt)]
  · rw [if_neg (by simpa using hlt), le_antisymm hq (not_lt.1 hlt)]

theorem pymin_ofQ_100_rad (A v : ℚ) (hA : A ≤ 100) (hv : v ≠ 0) :
    pymin (PVal.ofQ 100) (PVal.num A (-25) v) = PVal.num A (-25) v := by
  unfold pymin
  have hlt : (PVal.num A (-25) v).lt (PVal.ofQ 100) = true := by
    simp only [PVal.lt, PVal.ofQ, PVal.sub, PVal.neg, PVal.add, PVal.sign, decide_eq_true_eq]
    norm_num
    unfold radSign
    rw [if_neg (by simp [hv]), if_neg (by norm_num), if_pos (by linarith)]
  rw [if_pos hlt]

theorem sqrt_four_real : Real.sqrt 4 = 2 := by
  rw [show (4 : ℝ) = 2 ^ 2 by norm_num]
  exact Real.sqrt_sq (by norm_num)

theorem pvalSqrt_of_some {q s : ℚ} (hq : 0 ≤ q) (h : ratSqrt? q = some s) :
    pvalSqrt q = PVal.ofQ s := by
  unfold pvalSqrt
  rw [if_neg (not_lt.2 hq), h]
  rfl

theorem pvalSqrt_of_none {q : ℚ} (hq : 0 ≤ q) (h : ratSqrt? q = none) :
    pvalSqrt q = PVal.num 0 1 q := by
  unfold pvalSqrt
  rw [if_neg (not_lt.2 hq), h]

theorem confidence_of_eval (comps : List SignalComponent) (ws : ℚ) (hws : |ws| ≤ 2) :
    (confidence_of comps ws).toReal =
      100 * ((1 - Real.sqrt ((popVar (comps.map (fun c => signal_to_score c.signal)) : ℝ)) / 2)
          * (1/2) + (((|ws| : ℚ) : ℝ) / 2) * (1/2)) := by
  have hv0 : 0 ≤ popVar (comps.map (fun c => signal_to_score c.signal)) := popVar_nonneg _
  simp only [confidence_of, np_std]
  set v : ℚ := popVar (comps.map (fun c => signal_to_score c.signal)) with hv
  cases hsq : ratSqrt? v with
  | none =>
    have hvne : v ≠ 0 := by
      intro h0
      rw [h0, ratSqrt?_zero] at hsq
      exact Option.noConfusion hsq
    rw [pvalSqrt_of_none hv0 hsq]
    have e1 : (PVal.num 0 1 v).div (PVal.ofQ 2) = PVal.num 0 (1/2) v := by
      have hr : radSign 2 0 0 ≠ 0 := by rw [radSign_ofQ]; decide
      simp only [PVal.ofQ, PVal.div]
      rw [if_neg hr]
      norm_num
    have e2 : (PVal.ofQ 1).sub (PVal.num 0 (1/2) v) = PVal.num 1 (-(1/2)) v := by
      simp only [PVal.ofQ, PVal.sub, PVal.neg, PVal.add]
      norm_num
    have e3 : (PVal.num 1 (-(1/2)) v).mul (PVal.ofQ (1/2)) = PVal.num (1/2) (-(1/4)) v := by
      simp only [PVal.ofQ, PVal.mul]
      norm_num
    have e4 : (PVal.num (1/2) (-(1/4)) v).add (PVal.ofQ (|ws| / 2 * (1/2))) =
        PVal.num (1/2 + |ws| / 2 * (1/2)) (-(1/4)) v := by
      simp only [PVal.ofQ, PVal.add]
      norm_num
    have e5 : (PVal.num (1/2 + |ws| / 2 * (1/2)) (-(1/4)) v).mul (PVal.ofQ 100) =
        PVal.num (50 + 25 * |ws|) (-25) v := by
      simp only [PVal.ofQ, PVal.mul]
      rw [if_pos trivial]
      simp only [PVal.num.injEq]
      refine ⟨by ring, by norm_num, trivial⟩
    have e6 : pymin (PVal.ofQ 100) (PVal.num (50 + 25 * |ws|) (-25) v) =
        PVal.num (50 + 25 * |ws|) (-25) v :=
      pymin_ofQ_100_rad _ _ (by have := abs_nonneg ws; linarith) hvne
    rw [e1, e2, e3, PVal.ofQ_mul, e4, e5, e6]
    simp only [PVal.toReal]
    push_cast
    ring
  | some s =>
    obtain ⟨hs0, hs2⟩ := ratSqrt?_spec hsq
    have hXle : ((1 - s / 2) * (1/2) + |ws| / 2 * (1/2)) * 100 ≤ 100 := by
      nlinarith [hs0, hws, abs_nonneg ws]
    rw [pvalSqrt_of_some hv0 hsq, PVal.ofQ_div s 2 (by norm_num), PVal.ofQ_sub, PVal.ofQ_mul,
      PVal.ofQ_mul, PVal.ofQ_add, PVal.ofQ_mul, pymin_ofQ_100 _ hXle]
    have hsqrt : Real.sqrt ((v : ℚ) : ℝ) = (s : ℝ) := by
      rw [show ((v : ℚ) : ℝ) = (s : ℝ) ^ 2 from by exact_mod_cast hs2.symm]
      exact Real.sqrt_sq (by exact_mod_cast hs0)
    simp only [PVal.ofQ, PVal.toReal]
    rw [hsqrt]
    push_cast
    ring

/-- C4: for every non-empty series and every configuration whose seven
component weights are nonnegative with positive sum, `generate_signal`
succeeds, its weighted score lies in [-2, 2], and the returned confidence is
exactly `100*(agreement*0.5 + strength*0.5)` where `agreement` is one minus
half the population standard deviation of the seven signed component scores
and `strength` is half the absolute weighted score; in particular the
confidence lies in [0, 100]. -/
theorem weighted_score_confidence_bounds (p : Params) (bars : List Bar) (code nm : String)
    (hne : bars ≠ [])
    (hw1 : 0 ≤ p.weights.rsi) (hw2 : 0 ≤ p.weights.macd) (hw3 : 0 ≤ p.weights.bollinger)
    (hw4 : 0 ≤ p.weights.trend) (hw5 : 0 ≤ p.weights.volume) (hw6 : 0 ≤ p.weights.stochastic)
    (hw7 : 0 ≤ p.weights.adx)
    (hpos : 0 < p.weights.rsi + p.weights.macd + p.weights.bollinger + p.weights.trend +
      p.weights.volume + p.weights.stochastic + p.weights.adx) :
    ∃ sig, generate_signal p bars code nm = .ok sig ∧
      (-2 ≤ weighted_score_of (components_of p (calculate_all_indicators bars p)) ∧
        weighted_score_of (components_of p (calculate_all_indicators bars p)) ≤ 2) ∧
      sig.confidence.toReal =
        100 * ((1 - Real.sqrt ((popVar ((components_of p (calculate_all_indicators bars p)).map
              (fun c => signal_to_score c.signal)) : ℝ)) / 2) * (1/2) +
          (((|weighted_score_of (components_of p (calculate_all_indicators bars p))| : ℚ) : ℝ) / 2)
            * (1/2)) ∧
      0 ≤ sig.confidence.toReal ∧ sig.confidence.toReal ≤ 100 := by
  set t := calculate_all_indicators bars p with ht
  have htwpos : 0 < total_weight_of (components_of p t) := by
    rw [total_weight_components]
    exact hpos
  have htw : ¬ total_weight_of (components_of p t) = 0 := ne_of_gt htwpos
  have hn : ¬ t.n = 0 := by
    rw [ht, calc_n]
    simpa using hne
  have hwall : ∀ c ∈ components_of p t, 0 ≤ c.weight := by
    intro c hc
    simp only [components_of, List.mem_cons, List.not_mem_nil, or_false] at hc
    rcases hc with rfl | rfl | rfl | rfl | rfl | rfl | rfl
    · rw [analyze_rsi_weight]; exact hw1
    · rw [analyze_macd_weight]; exact hw2
    · rw [analyze_bollinger_weight]; exact hw3
    · rw [analyze_trend_weight]; exact hw4
    · rw [analyze_volume_weight]; exact hw5
    · rw [analyze_stochastic_weight]; exact hw6
    · rw [analyze_adx_weight]; exact hw7
  have hwsb := weighted_score_of_bounds (components_of p t) hwall htwpos
  have hws2 : |weighted_score_of (components_of p t)| ≤ 2 := abs_le.2 hwsb
  have hv4 : popVar ((components_of p t).map (fun c => signal_to_score c.signal)) ≤ 4 := by
    apply popVar_le_four
    intro x hx
    rw [List.mem_map] at hx
    obtain ⟨c, _, rfl⟩ := hx
    exact signal_to_score_bounds c.signal
  cases hgen : generate_signal p bars code nm with
  | error e =>
    exfalso
    simp only [generate_signal, signal_from_frame] at hgen
    rw [← ht] at hgen
    rw [if_neg hn, if_neg htw] at hgen
    exact Except.noConfusion hgen
  | ok sig =>
    have hconf : sig.confidence =
        confidence_of (components_of p t) (weighted_score_of (components_of p t)) := by
      simp only [generate_signal, signal_from_frame] at hgen
      rw [← ht] at hgen
      rw [if_neg hn, if_neg htw] at hgen
      injection hgen with h
      rw [← h]
    have heval := confidence_of_eval (components_of p t)
      (weighted_score_of (components_of p t)) hws2
    have hS0 : 0 ≤ Real.sqrt ((popVar ((components_of p t).map
        (fun c => signal_to_score c.signal)) : ℝ)) := Real.sqrt_nonneg _
    have hS2 : Real.sqrt ((popVar ((components_of p t).map
        (fun c => signal_to_score c.signal)) : ℝ)) ≤ 2 := by
      rw [← sqrt_four_real]
      apply Real.sqrt_le_sqrt
      exact_mod_cast hv4
    have habs0 : (0 : ℝ) ≤ ((|weighted_score_of (components_of p t)| : ℚ) : ℝ) := by
      exact_mod_cast abs_nonneg (weighted_score_of (components_of p t))
    have habs2 : ((|weighted_score_of (components_of p t)| : ℚ) : ℝ) ≤ 2 := by
      exact_mod_cast hws2
    refine ⟨sig, rfl, hwsb, ?_, ?_, ?_⟩
    · rw [hconf, heval]
    · rw [hconf, heval]
      nlinarith [hS0, hS2, habs0, habs2]
    · rw [hconf, heval]
      nlinarith [hS0, hS2, habs0, habs2]

/-- Witness for C4 at the default configuration and the one-bar flat series. -/
theorem weighted_score_confidence_bounds_witness :
    ∃ sig, generate_signal defaultParams one_bar "000001" "TEST" = .ok sig ∧
      (-2 ≤ weighted_score_of (components_of defaultParams
          (calculate_all_indicators one_bar defaultParams)) ∧
        weighted_score_of (components_of defaultParams
          (calculate_all_indicators one_bar defaultParams)) ≤ 2) ∧
      sig.confidence.toReal =
        100 * ((1 - Real.sqrt ((popVar ((components_of defaultParams
              (calculate_all_indicators one_bar defaultParams)).map
              (fun c => signal_to_score c.signal)) : ℝ)) / 2) * (1/2) +
          (((|weighted_score_of (components_of defaultParams
              (calculate_all_indicators one_bar defaultParams))| : ℚ) : ℝ) / 2)
            * (1/2)) ∧
      0 ≤ sig.confidence.toReal ∧ sig.confidence.toReal ≤ 100 :=
  weighted_score_confidence_bounds defaultParams one_bar "000001" "TEST" (by decide)
    (by decide) (by decide) (by decide) (by decide) (by decide) (by decide) (by decide)
    (by decide)

/-! ### Claims C8 and C9: determinism, timestamp provenance, and no mutation -/

theorem calc_heap_preserves (h : Heap) (dfId : Nat) (p : Params) (i : Nat)
    (hi : i < h.length) :
    (calculate_all_indicators_heap h dfId p).1.get? i = h.get? i := by
  unfold calculate_all_indicators_heap
  cases hdf : h.get? dfId with
  | none => rfl
  | some obj =>
    cases obj with
    | indframe t => rfl
    | frame bars =>
      show ((((h ++ [PyObj.frame bars]) ++ [PyObj.frame (sortBars bars)]).set
          (h ++ [PyObj.frame bars]).length
          (PyObj.indframe (calculate_all_indicators bars p))) ++
          [PyObj.indframe (calculate_all_indicators bars p)]).get? i = h.get? i
      have hi1 : i < (h ++ [PyObj.frame bars]).length := by
        rw [List.length_append]
        omega
      have hi2 : i < ((h ++ [PyObj.frame bars]) ++ [PyObj.frame (sortBars bars)]).length := by
        rw [List.length_append, List.length_append]
        omega
      have hi3 : i < (((h ++ [PyObj.frame bars]) ++ [PyObj.frame (sortBars bars)]).set
          (h ++ [PyObj.frame bars]).length
          (PyObj.indframe (calculate_all_indicators bars p))).length := by
        rw [List.length_set]
        exact hi2
      have hne : (h ++ [PyObj.frame bars]).length ≠ i := by
        rw [List.length_append]
        omega
      rw [List.get?_append hi3, List.get?_set_ne _ _ hne, List.get?_append hi1,
        List.get?_append hi]

theorem calc_heap_result (h : Heap) (dfId : Nat) (p : Params) (bars : List Bar)
    (hdf : h.get? dfId = some (.frame bars)) :
    (calculate_all_indicators_heap h dfId p).1.get?
        (calculate_all_indicators_heap h dfId p).2 =
      some (.indframe (calculate_all_indicators bars p)) := by
  unfold calculate_all_indicators_heap
  rw [hdf]
  show ((((h ++ [PyObj.frame bars]) ++ [PyObj.frame (sortBars bars)]).set
      (h ++ [PyObj.frame bars]).length
      (PyObj.indframe (calculate_all_indicators bars p))) ++
      [PyObj.indframe (calculate_all_indicators bars p)]).get?
      (((h ++ [PyObj.frame bars]) ++ [PyObj.frame (sortBars bars)]).set
        (h ++ [PyObj.frame bars]).length
        (PyObj.indframe (calculate_all_indicators bars p))).length =
    some (.indframe (calculate_all_indicators bars p))
  exact List.get?_concat_length _ _

theorem generate_signal_heap_pure (h : Heap) (dfId : Nat) (p : Params) (code nm : String)
    (bars : List Bar) (hdf : h.get? dfId = some (.frame bars)) :
    (generate_signal_heap h dfId p code nm).2 = generate_signal p bars code nm := by
  simp only [generate_signal_heap]
  rw [calc_heap_result h dfId p bars hdf]
  rfl

theorem generate_signal_heap_fst (h : Heap) (dfId : Nat) (p : Params) (code nm : String) :
    (generate_signal_heap h dfId p code nm).1 = (calculate_all_indicators_heap h dfId p).1 := by
  simp only [generate_signal_heap]
  cases hx : (calculate_all_indicators_heap h dfId p).1.get?
      (calculate_all_indicators_heap h dfId p).2 with
  | none => rfl
  | some obj => cases obj <;> rfl

/-- C8: `generate_signal` is deterministic and carries no hidden state: run
through the heap, its result is a pure function of the caller's bars and the
configuration, so a second invocation on the heap left by the first returns
the identical `TradingSignal`; and the signal's timestamp is the index value
of the latest bar of the sorted series, not any wall-clock time. -/
theorem generate_signal_deterministic (h : Heap) (dfId : Nat) (p : Params)
    (code nm : String) (bars : List Bar) (hdf : h.get? dfId = some (.frame bars)) :
    (generate_signal_heap h dfId p code nm).2 = generate_signal p bars code nm ∧
    (generate_signal_heap (generate_signal_heap h dfId p code nm).1 dfId p code nm).2 =
      (generate_signal_heap h dfId p code nm).2 ∧
    ∀ sig, generate_signal p bars code nm = .ok sig →
      sig.timestamp = ((sortBars bars).getD (bars.length - 1) defaultBar).ts := by
  have hdfid : dfId < h.length := by
    rcases List.get?_eq_some.mp hdf with ⟨hlt, _⟩
    exact hlt
  have h2 : (generate_signal_heap h dfId p code nm).1.get? dfId = some (.frame bars) := by
    rw [generate_signal_heap_fst, calc_heap_preserves h dfId p dfId hdfid]
    exact hdf
  refine ⟨generate_signal_heap_pure h dfId p code nm bars hdf, ?_, ?_⟩
  · rw [generate_signal_heap_pure _ dfId p code nm bars h2,
      generate_signal_heap_pure h dfId p code nm bars hdf]
  · intro sig hok
    simp only [generate_signal, signal_from_frame] at hok
    split at hok
    · simp at hok
    · split at hok
      · simp at hok
      · cases hok
        show ((sortBars bars).getD ((sortBars bars).length - 1) defaultBar).ts = _
        rw [length_sortBars]

/-- Witness for C8 at a one-frame heap holding the one-bar flat series. -/
theorem generate_signal_deterministic_witness :
    ([PyObj.frame one_bar] : Heap).get? 0 = some (PyObj.frame one_bar) ∧
    ((generate_signal_heap [PyObj.frame one_bar] 0 defaultParams "000001" "TEST").2 =
        generate_signal defaultParams one_bar "000001" "TEST" ∧
      (generate_signal_heap (generate_signal_heap [PyObj.frame one_bar] 0 defaultParams
          "000001" "TEST").1 0 defaultParams "000001" "TEST").2 =
        (generate_signal_heap [PyObj.frame one_bar] 0 defaultParams "000001" "TEST").2 ∧
      ∀ sig, generate_signal defaultParams one_bar "000001" "TEST" = .ok sig →
        sig.timestamp = ((sortBars one_bar).getD (one_bar.length - 1) defaultBar).ts) :=
  ⟨rfl, generate_signal_deterministic [PyObj.frame one_bar] 0 defaultParams "000001" "TEST"
    one_bar rfl⟩

/-- C9: `generate_signal` never mutates the caller's DataFrame: every heap cell
that existed before the call — in particular the caller's frame at `dfId` — is
unchanged afterwards; the indicator columns are written only to internal
copies appended beyond the original heap. -/
theorem generate_signal_no_mutation (h : Heap) (dfId : Nat) (p : Params)
    (code nm : String) (i : Nat) (hi : i < h.length) :
    (generate_signal_heap h dfId p code nm).1.get? i = h.get? i := by
  rw [generate_signal_heap_fst]
  exact calc_heap_preserves h dfId p i hi

/-- Witness for C9: the caller's cell of a concrete one-frame heap is intact
after the call. -/
theorem generate_signal_no_mutation_witness :
    (0 : Nat) < ([PyObj.frame one_bar] : Heap).length ∧
    (generate_signal_heap [PyObj.frame one_bar] 0 defaultParams "000001" "TEST").1.get? 0 =
      ([PyObj.frame one_bar] : Heap).get? 0 :=
  ⟨by decide, generate_signal_no_mutation [PyObj.frame one_bar] 0 defaultParams "000001" "TEST"
    0 (by decide)⟩
